import Mathlib

/-!
# AURA invoice console: the revenue dashboard's aggregation pipeline

A shallow embedding of the pure computations of `src/pages/RevenueDashboard.jsx`
(the `useMemo` bodies `filteredInvoices`, `kpi`, `monthlyData`, `dailyData`, ...), of the
memo `invested` of `src/pages/Home.jsx` and of the sorting of `src/pages/Invoices.jsx`,
followed by theorems about them.

Modelling conventions.

* A JavaScript number is a rational or `NaN` (`JsNum`); rounding of IEEE doubles and the
  infinities are not modelled.
* A `Date` object is its time value: milliseconds since the epoch, or `NaN` (`JsDate.invalid`).
* What the JavaScript engine supplies and the repository does not define is a parameter,
  collected in `Host`: the parser behind `new Date(string)`, the local time zone offset
  (which may change with the instant, as under daylight saving time) and
  `String.prototype.toUpperCase`.
* A record field is modelled by what the code can observe of it: a text field is `null`,
  `undefined` or a string; an amount is `null`, `undefined`, a value that `Number(...)` turns
  into a number, or a value that `Number(...)` turns into `NaN`.
* A JavaScript `Map` is the list of its entries in insertion order; `Array.prototype.sort`
  with the comparator of the source is an insertion sort on keys, which are distinct.
* A computation that can throw returns in `Except`.
-/

namespace Aura

/-! ## JavaScript values -/

/-- A JavaScript number: a rational, or `NaN`. -/
inductive JsNum where
  | num (q : ℚ)
  | nan
  deriving DecidableEq, Repr

namespace JsNum

/-- The `+` of two numbers: `NaN` absorbs. -/
def add : JsNum → JsNum → JsNum
  | num a, num b => num (a + b)
  | _, _ => nan

/-- The `-` of two numbers. -/
def sub : JsNum → JsNum → JsNum
  | num a, num b => num (a - b)
  | _, _ => nan

/-- The `*` of two numbers. -/
def mul : JsNum → JsNum → JsNum
  | num a, num b => num (a * b)
  | _, _ => nan

/-- The `/` of two numbers; `x / 0` is an infinity or `NaN`, neither a rational: `nan` here.
The dashboard only divides by a positive length. -/
def div : JsNum → JsNum → JsNum
  | num a, num b => if b = 0 then nan else num (a / b)
  | _, _ => nan

/-- ToBoolean on a number: `0` and `NaN` are falsy. -/
def truthy : JsNum → Bool
  | num q => decide (q ≠ 0)
  | nan => false

/-- The idiom `x || 0` on a number. -/
def orZero (x : JsNum) : JsNum :=
  if x.truthy then x else num 0

/-- The comparison `a > b` of two numbers: false when either is `NaN`. -/
def gt : JsNum → JsNum → Bool
  | num a, num b => decide (b < a)
  | _, _ => false

instance : Add JsNum := ⟨add⟩
instance : Zero JsNum := ⟨num 0⟩

/-- Addition of JavaScript numbers is a commutative monoid with `NaN` absorbing; sums of
lists of numbers are taken in it. -/
instance : AddCommMonoid JsNum where
  add_assoc a b c := by
    cases a <;> cases b <;> cases c <;>
      first | rfl | exact congrArg num (add_assoc _ _ _)
  zero_add a := by
    cases a <;> first | rfl | exact congrArg num (zero_add _)
  add_zero a := by
    cases a <;> first | rfl | exact congrArg num (add_zero _)
  add_comm a b := by
    cases a <;> cases b <;> first | rfl | exact congrArg num (add_comm _ _)
  nsmul := nsmulRec

end JsNum

/-- A text field of a record as the server's JSON delivers it. -/
inductive Text where
  | null
  | undefined
  | str (s : String)
  deriving DecidableEq, Repr

namespace Text

/-- ToBoolean on a text field: `null`, `undefined` and the empty string are falsy. -/
def truthy : Text → Bool
  | str s => decide (s ≠ "")
  | _ => false

/-- The idiom `x || dflt` on a text field, read as a string. -/
def orElse (t : Text) (dflt : String) : String :=
  match t with
  | str s => if s ≠ "" then s else dflt
  | _ => dflt

/-- A text field is missing when it is `null`, `undefined` or empty. -/
def missing : Text → Bool
  | str s => decide (s = "")
  | _ => true

end Text

/-- An amount field of a record, by what `x != null` and `Number(x)` observe of it. -/
inductive Amount where
  | null
  | undefined
  /-- A number, or a string that `Number` reads as the number `q`. -/
  | numeric (q : ℚ)
  /-- A present value that `Number` turns into `NaN`, such as the string `"abc"`. -/
  | nonNumeric
  deriving DecidableEq, Repr

namespace Amount

/-- The test `x == null`, true of `null` and `undefined`. -/
def isNullish : Amount → Bool
  | null => true
  | undefined => true
  | _ => false

/-- The coercion `Number(x)`. -/
def toNumber : Amount → JsNum
  | null => .num 0
  | undefined => .nan
  | numeric q => .num q
  | nonNumeric => .nan

end Amount

/-- An invoice record as received from the API; every field may be absent. -/
structure Invoice where
  id : Nat
  invoiceDate : Text
  metalType : Text
  amountWithoutGst : Amount
  gstAmount : Amount
  totalAmount : Amount
  deriving DecidableEq, Repr

/-! ## Dates -/

/-- A `Date` object, by its time value. -/
inductive JsDate where
  | valid (ms : Int)
  | invalid
  deriving DecidableEq, Repr

namespace JsDate

/-- The relational `a < b` on two dates: compares time values, false when either is `NaN`. -/
def lt : JsDate → JsDate → Bool
  | valid a, valid b => decide (a < b)
  | _, _ => false

/-- The relational `a > b` on two dates. -/
def gt (a b : JsDate) : Bool := lt b a

end JsDate

/-- Milliseconds in a day. -/
def msPerDay : Int := 86400000

/-- The largest time value a `Date` holds (8.64e15 ms); TimeClip yields `NaN` beyond it. -/
def maxTime : Int := 8640000000000000

/-- TimeClip of ECMAScript. -/
def timeClip (t : Int) : JsDate :=
  if t.natAbs ≤ maxTime.natAbs then .valid t else .invalid

/-- What the JavaScript engine contributes. -/
structure Host where
  /-- The engine's parser behind `new Date(string)`. -/
  parseDateString : String → JsDate
  /-- Local time minus UTC in milliseconds at the instant `t`: `LocalTZA(t, true)`. -/
  tzOffset : Int → Int
  /-- Local time minus UTC in milliseconds for the local time value `t`: `LocalTZA(t, false)`. -/
  tzOffsetLocal : Int → Int
  /-- The method `String.prototype.toUpperCase`. -/
  toUpperCase : String → String
  /-- Upper-casing the empty string gives the empty string. -/
  upper_empty : toUpperCase "" = ""
  /-- Upper-casing keeps a string of ASCII capitals and digits as it is. -/
  upper_fixed : ∀ s : String,
    (∀ c ∈ s.data, c.isUpper = true ∨ c.isDigit = true) → toUpperCase s = s

/-- The method `String.prototype.startsWith`. -/
def startsWith (s pre : String) : Bool :=
  pre.data.isPrefixOf s.data

/-- The day number of a time value, `Day(t) = floor(t / msPerDay)`. -/
def day (t : Int) : Int := t / msPerDay

/-- The civil date `(year, month 1..12, day of month 1..31)` of a day number counted from
1970-01-01, in the proleptic Gregorian calendar. -/
def civilFromDays (z : Int) : Int × Int × Int :=
  let z := z + 719468
  let era := z / 146097
  let doe := z - era * 146097
  let yoe := (doe - doe / 1460 + doe / 36524 - doe / 146096) / 365
  let y := yoe + era * 400
  let doy := doe - (365 * yoe + yoe / 4 - yoe / 100)
  let mp := (5 * doy + 2) / 153
  let d := doy - (153 * mp + 2) / 5 + 1
  let m := if mp < 10 then mp + 3 else mp - 9
  (if m ≤ 2 then y + 1 else y, m, d)

/-- The day number, counted from 1970-01-01, of a civil date. -/
def daysFromCivil (y m d : Int) : Int :=
  let y := if m ≤ 2 then y - 1 else y
  let era := y / 400
  let yoe := y - era * 400
  let doy := (153 * (if m > 2 then m - 3 else m + 9) + 2) / 5 + d - 1
  let doe := yoe * 365 + yoe / 4 - yoe / 100 + doy
  era * 146097 + doe - 719468

/-- LocalTime of ECMAScript: the local time value of the instant `t`. -/
def localTime (H : Host) (t : Int) : Int := t + H.tzOffset t

/-- UTC of ECMAScript: the instant of the local time value `t`. -/
def utc (H : Host) (t : Int) : Int := t - H.tzOffsetLocal t

/-- The constructor `new Date(value)` on a text field. -/
def newDate (H : Host) : Text → JsDate
  | .str s => H.parseDateString s
  | .null => .valid 0
  | .undefined => .invalid

/-- The method `setHours(h, m, s, ms)`: the same local day at the given local time of day. -/
def setHours (H : Host) (d : JsDate) (h m s ms : Int) : JsDate :=
  match d with
  | .invalid => .invalid
  | .valid t =>
    timeClip (utc H (day (localTime H t) * msPerDay
      + (h * 3600000 + m * 60000 + s * 1000 + ms)))

/-- The method `getDate`: the day of the month of the local date, `none` (NaN) on an invalid
date. -/
def getDate (H : Host) : JsDate → Option Int
  | .valid t => some (civilFromDays (day (localTime H t))).2.2
  | .invalid => none

/-- The method `setDate(dt)`: the local date becomes day `dt` counted from the first of the
local month (MakeDay, so `dt` may be zero or negative and then reaches into earlier months),
the local time of day is kept, and the result is turned back into an instant. -/
def setDate (H : Host) (d : JsDate) (dt : Option Int) : JsDate :=
  match d, dt with
  | .valid t, some n =>
    let tl := localTime H t
    let c := civilFromDays (day tl)
    timeClip (utc H ((daysFromCivil c.1 c.2.1 1 + (n - 1)) * msPerDay + tl % msPerDay))
  | _, _ => .invalid

/-! ## The filter stage -/

/-- The helper `parseDate` (RevenueDashboard.jsx, lines 74-81): `null` for a falsy value, else
`new Date(value)`; the constructor never throws, so the `catch` branch is dead. -/
def parseDate (H : Host) (value : Text) : Option JsDate :=
  if !value.truthy then none else some (newDate H value)

/-- The filter criteria held by the dashboard: the two date inputs (empty when unset) and the
metal selector. -/
structure Criteria where
  startDate : String
  endDate : String
  metalFilter : String
  deriving DecidableEq, Repr

/-- The test `!d || d < bound` on a parsed date. -/
def nullOrBefore (d : Option JsDate) (bound : JsDate) : Bool :=
  match d with
  | none => true
  | some dv => dv.lt bound

/-- The test `!d || d > bound` on a parsed date. -/
def nullOrAfter (d : Option JsDate) (bound : JsDate) : Bool :=
  match d with
  | none => true
  | some dv => dv.gt bound

/-- The callback of `invoices.filter` in `filteredInvoices` (lines 101-118). -/
def keeps (H : Host) (C : Criteria) (inv : Invoice) : Bool :=
  let start : Option JsDate :=
    if C.startDate ≠ "" then some (H.parseDateString C.startDate) else none
  let endD : Option JsDate :=
    if C.endDate ≠ "" then some (H.parseDateString C.endDate) else none
  let d := parseDate H inv.invoiceDate
  if (match start with
      | some s => nullOrBefore d s
      | none => false) then false
  else if (match endD with
      | some e => nullOrAfter d (setHours H e 23 59 59 999)
      | none => false) then false
  else if C.metalFilter ≠ "ALL"
      && !(startsWith (H.toUpperCase (inv.metalType.orElse "")) C.metalFilter) then false
  else true

/-- The memo `filteredInvoices` (lines 97-119). -/
def filteredInvoices (H : Host) (invoices : List Invoice) (C : Criteria) : List Invoice :=
  invoices.filter (keeps H C)

/-! ## The aggregation stage -/

/-- A JavaScript `Map` from string keys to numbers, as its entries in insertion order. -/
abbrev Buckets := List (String × JsNum)

/-- The method `Map.prototype.get`; `none` is `undefined`. -/
def mapGet : Buckets → String → Option JsNum
  | [], _ => none
  | (k, v) :: rest, key => if k = key then some v else mapGet rest key

/-- The method `Map.prototype.set`: an existing key keeps its place, a new key goes last. -/
def mapSet : Buckets → String → JsNum → Buckets
  | [], key, v => [(key, v)]
  | (k, w) :: rest, key, v => if k = key then (k, v) :: rest else (k, w) :: mapSet rest key v

/-- The idiom `buckets.get(key) || 0`. -/
def getOrZero (buckets : Buckets) (key : String) : JsNum :=
  match mapGet buckets key with
  | none => .num 0
  | some v => v.orZero

/-- The comparator `([a], [b]) => (a < b ? -1 : 1)` puts `x` before `y` when it is negative. -/
def keyBefore (x y : String × JsNum) : Prop := x.1 < y.1

instance : DecidableRel keyBefore := fun x y => inferInstanceAs (Decidable (x.1 < y.1))

/-- The call `Array.from(buckets.entries()).sort(([a], [b]) => (a < b ? -1 : 1))`. -/
def sortEntries (buckets : Buckets) : Buckets :=
  buckets.insertionSort keyBefore

/-- The result of the memo `kpi`. -/
structure Kpi where
  totalSpend : JsNum
  gstPaid : JsNum
  count : Nat
  avgInvoice : JsNum
  deriving DecidableEq, Repr

/-- The callback of `forEach` in `kpi` (lines 135-138), on the pair `(totalSpend, gstPaid)`. -/
def kpiStep (acc : JsNum × JsNum) (inv : Invoice) : JsNum × JsNum :=
  let totalSpend :=
    if !inv.totalAmount.isNullish then acc.1.add inv.totalAmount.toNumber else acc.1
  let gstPaid :=
    if !inv.gstAmount.isNullish then acc.2.add inv.gstAmount.toNumber else acc.2
  (totalSpend, gstPaid)

/-- The memo `kpi` (lines 122-144). -/
def kpi (filteredInvoices : List Invoice) : Kpi :=
  if filteredInvoices.length = 0 then
    { totalSpend := .num 0, gstPaid := .num 0, count := 0, avgInvoice := .num 0 }
  else
    let acc := filteredInvoices.foldl kpiStep (.num 0, .num 0)
    let count := filteredInvoices.length
    let avgInvoice := if count > 0 then acc.1.div (.num count) else .num 0
    { totalSpend := acc.1, gstPaid := acc.2, count := count, avgInvoice := avgInvoice }

/-- The method `String.prototype.padStart(n, c)` for a one-character filler. -/
def padStart (s : String) (n : Nat) (c : Char) : String :=
  ⟨List.replicate (n - s.length) c ++ s.data⟩

/-- The method `String.prototype.slice(a, b)` for `0 ≤ a ≤ b`. -/
def slice (s : String) (a b : Nat) : String :=
  ⟨(s.data.drop a).take (b - a)⟩

/-- The method `getFullYear`: the year of the local date, `none` (NaN) on an invalid date. -/
def getFullYear (H : Host) : JsDate → Option Int
  | .valid t => some (civilFromDays (day (localTime H t))).1
  | .invalid => none

/-- The method `getMonth`: the month of the local date, January being 0. -/
def getMonth (H : Host) : JsDate → Option Int
  | .valid t => some ((civilFromDays (day (localTime H t))).2.1 - 1)
  | .invalid => none

/-- The string of a number that is an integer or NaN. -/
def numToString : Option Int → String
  | some n => toString n
  | none => "NaN"

/-- The key of line 153: the local year, a dash, and the local month padded to two digits;
`NaN-NaN` on an invalid date. -/
def monthKey (H : Host) (d : JsDate) : String :=
  numToString (getFullYear H d) ++ "-"
    ++ padStart (numToString ((getMonth H d).map (· + 1))) 2 '0'

/-- The callback of `forEach` in `monthlyData` (lines 150-156). -/
def monthlyStep (H : Host) (buckets : Buckets) (inv : Invoice) : Buckets :=
  match parseDate H inv.invoiceDate with
  | none => buckets
  | some d =>
    if inv.totalAmount.isNullish then buckets
    else
      let key := monthKey H d
      let current := getOrZero buckets key
      mapSet buckets key (current.add inv.totalAmount.toNumber)

/-- An entry of the monthly chart. -/
structure MonthlyBucket where
  month : String
  total : JsNum
  deriving DecidableEq, Repr

/-- The memo `monthlyData` (lines 147-164). -/
def monthlyData (H : Host) (filteredInvoices : List Invoice) : List MonthlyBucket :=
  (sortEntries (filteredInvoices.foldl (monthlyStep H) [])).map
    (fun e => { month := e.1, total := e.2 })

/-- The method `toISOString`: throws a `RangeError` on an invalid date. -/
def toISOString : JsDate → Except String String
  | .invalid => .error "RangeError: Invalid time value"
  | .valid t =>
    let c := civilFromDays (day t)
    let tod := t % msPerDay
    let year :=
      if 0 ≤ c.1 ∧ c.1 ≤ 9999 then padStart (toString c.1) 4 '0'
      else (if c.1 < 0 then "-" else "+") ++ padStart (toString c.1.natAbs) 6 '0'
    .ok (year ++ "-" ++ padStart (toString c.2.1) 2 '0' ++ "-" ++ padStart (toString c.2.2) 2 '0'
      ++ "T" ++ padStart (toString (tod / 3600000)) 2 '0'
      ++ ":" ++ padStart (toString (tod % 3600000 / 60000)) 2 '0'
      ++ ":" ++ padStart (toString (tod % 60000 / 1000)) 2 '0'
      ++ "." ++ padStart (toString (tod % 1000)) 3 '0' ++ "Z")

/-- The cutoff of `dailyData` (lines 184-186): a copy of `now` with
`setDate(getDate() - 30)`, that is the local date of `now` moved back 30 calendar days at the
same local time of day. -/
def dailyCutoff (H : Host) (now : Int) : JsDate :=
  let cutoff := timeClip now
  setDate H cutoff ((getDate H cutoff).map (· - 30))

/-- The callback of `forEach` in `dailyData` (lines 189-195). -/
def dailyStep (cutoff : JsDate) (H : Host) (buckets : Buckets) (inv : Invoice) :
    Except String Buckets :=
  match parseDate H inv.invoiceDate with
  | none => .ok buckets
  | some d =>
    if inv.totalAmount.isNullish then .ok buckets
    else if d.lt cutoff then .ok buckets
    else do
      let iso ← toISOString d
      let key := slice iso 0 10
      pure (mapSet buckets key ((getOrZero buckets key).add inv.totalAmount.toNumber))

/-- An entry of the daily chart. -/
structure DailyBucket where
  date : String
  total : JsNum
  deriving DecidableEq, Repr

/-- The memo `dailyData` (lines 183-200), evaluated at the instant `now`. -/
def dailyData (H : Host) (now : Int) (filteredInvoices : List Invoice) :
    Except String (List DailyBucket) := do
  let cutoff := dailyCutoff H now
  let buckets ← filteredInvoices.foldlM (dailyStep cutoff H) []
  pure ((sortEntries buckets).map (fun e => { date := e.1, total := e.2 }))

/-- The update `buckets.set(key, (buckets.get(key) || 0) + x)` shared by the monthly and the
daily reduction. -/
def addEntry (buckets : Buckets) (key : String) (x : JsNum) : Buckets :=
  mapSet buckets key ((getOrZero buckets key).add x)

/-- The contribution of a record to the monthly buckets: its month key and amount, when it
has a date and a total. -/
def monthlyEntry (H : Host) (inv : Invoice) : Option (String × JsNum) :=
  match parseDate H inv.invoiceDate with
  | none => none
  | some d =>
    if inv.totalAmount.isNullish then none
    else some (monthKey H d, inv.totalAmount.toNumber)

/-- Every present total of the list is numeric, as in the data model of the specification
(a decimal amount or null). -/
def numericTotals (F : List Invoice) : Prop :=
  ∀ inv ∈ F, inv.totalAmount ≠ .nonNumeric

/-- The sum of the values of a bucket list. -/
def sumValues (b : Buckets) : JsNum := (b.map (·.2)).sum

/-- Every value of a bucket list is a number, none is `NaN`. -/
def allNum (b : Buckets) : Prop := ∀ e ∈ b, ∃ q, e.2 = .num q

/-- Folding a list of contributions `(key, amount)` into an empty map. -/
def accumulate (E : List (String × JsNum)) : Buckets :=
  E.foldl (fun b e => addEntry b e.1 e.2) []

/-- A record counts for the month `key`: it has a date and a total, and its month key is
`key`. -/
def inMonth (H : Host) (key : String) (inv : Invoice) : Bool :=
  match parseDate H inv.invoiceDate with
  | none => false
  | some d => !inv.totalAmount.isNullish && decide (monthKey H d = key)

/-! ## Metal distribution, GST rows, invested totals and profits -/

/-- The key of a record in `metalData` (lines 170-175). -/
def metalKey (H : Host) (inv : Invoice) : String :=
  let keyRaw := inv.metalType.orElse "UNKNOWN"
  if startsWith (H.toUpperCase keyRaw) "GOLD" then "GOLD"
  else if startsWith (H.toUpperCase keyRaw) "SILVER" then "SILVER"
  else H.toUpperCase keyRaw

/-- The callback of `forEach` in `metalData` (lines 169-177). -/
def metalStep (H : Host) (counts : Buckets) (inv : Invoice) : Buckets :=
  let key := metalKey H inv
  mapSet counts key ((getOrZero counts key).add (.num 1))

/-- An entry of the metal distribution chart. -/
structure MetalEntry where
  name : String
  value : JsNum
  deriving DecidableEq, Repr

/-- The memo `metalData` (lines 167-180): the entries of the map, in insertion order. -/
def metalData (H : Host) (filteredInvoices : List Invoice) : List MetalEntry :=
  (filteredInvoices.foldl (metalStep H) []).map (fun e => { name := e.1, value := e.2 })

/-- A row of the GST chart. -/
structure GstRow where
  id : Nat
  invoiceDate : String
  amountWithoutGst : JsNum
  gstAmount : JsNum
  deriving DecidableEq, Repr

/-- The memo `gstData` (lines 203-210). -/
def gstData (filteredInvoices : List Invoice) : List GstRow :=
  filteredInvoices.map (fun inv =>
    { id := inv.id
      invoiceDate := inv.invoiceDate.orElse ""
      amountWithoutGst :=
        if !inv.amountWithoutGst.isNullish then inv.amountWithoutGst.toNumber else .num 0
      gstAmount := if !inv.gstAmount.isNullish then inv.gstAmount.toNumber else .num 0 })

/-- The conversion `String(x)` of a text field. -/
def Text.toStr : Text → String
  | .str s => s
  | .null => "null"
  | .undefined => "undefined"

/-- The result of the memo `investedTotals`. -/
structure InvestedTotals where
  gold : JsNum
  silver : JsNum
  deriving DecidableEq, Repr

/-- The callback of `forEach` in `investedTotals` (lines 217-226). -/
def investedStep (H : Host) (acc : InvestedTotals) (inv : Invoice) : InvestedTotals :=
  if !inv.metalType.truthy || inv.amountWithoutGst.isNullish then acc
  else
    let metal := H.toUpperCase inv.metalType.toStr
    let base := inv.amountWithoutGst.toNumber.orZero
    if startsWith metal "GOLD" then { acc with gold := acc.gold.add base }
    else if startsWith metal "SILVER" then { acc with silver := acc.silver.add base }
    else acc

/-- The memo `investedTotals` (lines 213-229). -/
def investedTotals (H : Host) (filteredInvoices : List Invoice) : InvestedTotals :=
  filteredInvoices.foldl (investedStep H) { gold := .num 0, silver := .num 0 }

/-- The test `isNaN(x)` on a number. -/
def JsNum.isNaN : JsNum → Bool
  | .nan => true
  | .num _ => false

/-- The result of the memo `profits`. -/
structure Profits where
  gold : JsNum
  silver : JsNum
  deriving DecidableEq, Repr

/-- The memo `profits` (lines 232-253). The four inputs are given by what `parseFloat` reads
from the text of the input boxes: `gQty = parseFloat(goldGrams)`, `gCur =
parseFloat(goldCurrentRate)`, and likewise for silver; an empty or non-numeric box reads as
`NaN`. -/
def profits (investedTotals : InvestedTotals) (gQty gCur sQty sCur : JsNum) : Profits :=
  let gold :=
    if !gQty.isNaN && gQty.gt (.num 0) && !gCur.isNaN && gCur.gt (.num 0)
        && investedTotals.gold.gt (.num 0) then
      (gQty.mul gCur).sub investedTotals.gold
    else .num 0
  let silver :=
    if !sQty.isNaN && sQty.gt (.num 0) && !sCur.isNaN && sCur.gt (.num 0)
        && investedTotals.silver.gt (.num 0) then
      (sQty.mul sCur).sub investedTotals.silver
    else .num 0
  { gold := gold, silver := silver }

/-- The normalized metal label of the specification: `UNKNOWN` when the metal type is
missing, `GOLD` or `SILVER` when the upper-cased type starts with that word, and the
upper-cased type otherwise. -/
def metalLabel (H : Host) (inv : Invoice) : String :=
  if inv.metalType.missing then "UNKNOWN"
  else if startsWith (H.toUpperCase inv.metalType.toStr) "GOLD" then "GOLD"
  else if startsWith (H.toUpperCase inv.metalType.toStr) "SILVER" then "SILVER"
  else H.toUpperCase inv.metalType.toStr

/-- The amount a field stands for in a sum: the number it holds, and 0 when it is absent or
not numeric. -/
def Amount.value : Amount → ℚ
  | .numeric q => q
  | _ => 0

/-- A record counts for the invested total of the metal `token`: it has a metal type whose
upper-cased text starts with `token`, and an `amountWithoutGst`. -/
def investedIn (H : Host) (token : String) (inv : Invoice) : Bool :=
  !inv.metalType.missing && !inv.amountWithoutGst.isNullish
    && startsWith (H.toUpperCase inv.metalType.toStr) token

/-! ## Loading the records and formatting amounts -/

/-- The state `status` of the dashboard. -/
inductive Status where
  | idle
  | loading
  | success
  | error
  deriving DecidableEq, Repr

/-- The value of `await res.json()`: an array of records, or any other JSON value. -/
inductive JsonBody where
  | array (records : List Invoice)
  | other
  deriving DecidableEq, Repr

/-- The outcome of one request: `fetch` rejects, the response is not `ok`, its body is not
JSON, or the body is parsed. -/
inductive Response where
  | networkFailure
  | httpError (status : Nat)
  | badJson
  | json (data : JsonBody)
  deriving DecidableEq, Repr

/-- The state of the dashboard that the request handler writes. -/
structure Dashboard where
  invoices : List Invoice
  status : Status
  error : Option String
  deriving DecidableEq, Repr

/-- The dashboard when it is mounted: no records, `idle`, no error. -/
def Dashboard.initial : Dashboard :=
  { invoices := [], status := .idle, error := none }

/-- The handler `fetchInvoices` of the dashboard (lines 41-64) as a transition of its state,
given the outcome of the request and the flag `cancelled` at the time the outcome arrives. -/
def fetchInvoices (cancelled : Bool) (st : Dashboard) (res : Response) : Dashboard :=
  let st := { st with status := if st.status = .idle then .loading else st.status }
  match res with
  | .json (.array data) =>
    if !cancelled then { invoices := data, status := .success, error := none } else st
  | .json .other => st
  | _ =>
    if !cancelled then { st with status := .error, error := some "Unable to load invoices" }
    else st

/-- The helper `formatCurrency` of the dashboard (lines 83-94). The formatter
`Intl.NumberFormat(...).format`, which may throw, and the conversion `String(value)` are
the engine's and are taken as parameters. -/
def formatCurrency (format : Amount → Except String String) (toStr : Amount → String)
    (value : Amount) : Except String String :=
  if value.isNullish then pure "-"
  else tryCatch (format value) (fun _ => pure (toStr value))

/-- The helper `formatCurrency` of the home page (Home.jsx, lines 60-71). Its fallback
literal is the rupee sign followed by `0`; the source file holds the rupee sign doubly
encoded, as the three characters U+00E2, U+201A, U+00B9. -/
def Home.formatCurrency (format : Amount → Except String String) (toStr : Amount → String)
    (value : Amount) : Except String String :=
  if value.isNullish then pure "\u00e2\u201a\u00b90"
  else tryCatch (format value) (fun _ => pure (toStr value))

/-- A text shows a zero amount when its last character is the digit `0`. -/
def showsZero (s : String) : Bool :=
  s.data.getLast? == some '0'

/-- A formatter that always throws. -/
def throwingFormat : Amount → Except String String :=
  fun _ => .error "RangeError"

/-- A stand-in for `String(value)`, exact on integers. -/
def plainStr : Amount → String
  | .null => "null"
  | .undefined => "undefined"
  | .numeric q => if q.den = 1 then toString q.num else toString q.num ++ "/" ++ toString q.den
  | .nonNumeric => "abc"

/-! ## The home page and the invoice list -/

/-- The callback of `forEach` in the memo `invested` of the home page (Home.jsx, lines
35-44). -/
def Home.investedStep (H : Host) (acc : InvestedTotals) (inv : Invoice) : InvestedTotals :=
  if !inv.metalType.truthy || inv.amountWithoutGst.isNullish then acc
  else
    let metal := H.toUpperCase inv.metalType.toStr
    let base := inv.amountWithoutGst.toNumber.orZero
    if startsWith metal "GOLD" then { acc with gold := acc.gold.add base }
    else if startsWith metal "SILVER" then { acc with silver := acc.silver.add base }
    else acc

/-- The memo `invested` of the home page (Home.jsx, lines 31-47). -/
def Home.invested (H : Host) (invoices : List Invoice) : InvestedTotals :=
  invoices.foldl (Home.investedStep H) { gold := .num 0, silver := .num 0 }

/-- The difference `da - db` of two dates: the difference of their time values, `NaN` when
either is invalid. -/
def JsDate.sub : JsDate → JsDate → JsNum
  | .valid a, .valid b => .num ((a - b : Int) : ℚ)
  | _, _ => .nan

/-- The expression `a.invoiceDate ? new Date(a.invoiceDate) : null` of the invoice list
(Invoices.jsx, lines 21-22). -/
def Invoices.dateOf (H : Host) (inv : Invoice) : Option JsDate :=
  if inv.invoiceDate.truthy then some (newDate H inv.invoiceDate) else none

/-- The comparator of the invoice list (Invoices.jsx, lines 20-27). -/
def Invoices.comparator (H : Host) (a b : Invoice) : JsNum :=
  match Invoices.dateOf H a, Invoices.dateOf H b with
  | none, none => .num 0
  | none, some _ => .num 1
  | some _, none => .num (-1)
  | some da, some db => da.sub db

/-- What `Array.prototype.sort` makes of the comparator: `a` may stand before `b` when the
comparator's value is not positive, a `NaN` value counting as 0. -/
def Invoices.notAfter (H : Host) (a b : Invoice) : Prop :=
  match Invoices.comparator H a b with
  | .num q => q ≤ 0
  | .nan => True

instance (H : Host) : DecidableRel (Invoices.notAfter H) := fun a b => by
  unfold Invoices.notAfter
  split <;> infer_instance

/-- The call `[...data].sort(comparator)`: a stable sort, here by insertion. -/
def Invoices.sortByDate (H : Host) (data : List Invoice) : List Invoice :=
  data.insertionSort (Invoices.notAfter H)

/-- The state of the invoice list that its request handler writes. -/
structure InvoicesPage where
  invoices : List Invoice
  status : Status
  deriving DecidableEq, Repr

/-- The handler `fetchInvoices` of the invoice list (Invoices.jsx, lines 8-35) as a
transition of its state; `hasUser` is the test `user && user.id`. -/
def Invoices.fetchInvoices (H : Host) (hasUser : Bool) (st : InvoicesPage) (res : Response) :
    InvoicesPage :=
  if !hasUser then st
  else
    match res with
    | .json (.array data) => { invoices := Invoices.sortByDate H data, status := .success }
    | .json .other => { invoices := [], status := .success }
    | _ => { st with status := .error }

/-- Two records stand in display order: not a record without a date before one with a date,
and not a later valid date before an earlier one. -/
def Invoices.inOrder (H : Host) (a b : Invoice) : Prop :=
  match Invoices.dateOf H a, Invoices.dateOf H b with
  | none, some _ => False
  | some (.valid ta), some (.valid tb) => ta ≤ tb
  | _, _ => True

instance (H : Host) : DecidableRel (Invoices.inOrder H) := fun a b => by
  unfold Invoices.inOrder
  split <;> infer_instance

/-- The sort key of a record: the time value of its date, and the top element when it has
no date. -/
def Invoices.sortKey (H : Host) (inv : Invoice) : WithTop ℤ :=
  match Invoices.dateOf H inv with
  | some (.valid t) => (t : WithTop ℤ)
  | _ => ⊤

/-! ## A concrete host -/

/-- Upper-casing of the ASCII letters, every other character kept. -/
def asciiUpper (s : String) : String := ⟨s.data.map Char.toUpper⟩

/-- The value of a decimal digit character. -/
def digitVal (c : Char) : Option Int :=
  if c.isDigit then some (c.toNat - 48 : Nat) else none

/-- Days in a month of the Gregorian calendar. -/
def daysInMonth (y m : Int) : Int :=
  if m = 2 then (if y % 4 = 0 ∧ (y % 100 ≠ 0 ∨ y % 400 = 0) then 29 else 28)
  else if m = 4 ∨ m = 6 ∨ m = 9 ∨ m = 11 then 30 else 31

/-- The date-only form `YYYY-MM-DD` of the ECMAScript date-time string format, read as
midnight UTC; every other string is an invalid date for this host. -/
def parseIsoDateOnly (s : String) : JsDate :=
  match s.data with
  | [y1, y2, y3, y4, '-', m1, m2, '-', d1, d2] =>
    match digitVal y1, digitVal y2, digitVal y3, digitVal y4,
        digitVal m1, digitVal m2, digitVal d1, digitVal d2 with
    | some a, some b, some c, some e, some f, some g, some h, some i =>
      let y := a * 1000 + b * 100 + c * 10 + e
      let m := f * 10 + g
      let d := h * 10 + i
      if 1 ≤ m ∧ m ≤ 12 ∧ 1 ≤ d ∧ d ≤ daysInMonth y m then
        .valid (daysFromCivil y m d * msPerDay)
      else .invalid
    | _, _, _, _, _, _, _, _ => .invalid
  | _ => .invalid

/-- A browser in India: date-only ISO strings, UTC+05:30, ASCII upper-casing. -/
def istHost : Host where
  parseDateString := parseIsoDateOnly
  tzOffset := fun _ => 19800000
  tzOffsetLocal := fun _ => 19800000
  toUpperCase := asciiUpper
  upper_empty := rfl
  upper_fixed := by
    intro s hs
    have hc : ∀ c : Char, c.isUpper = true ∨ c.isDigit = true → c.toUpper = c := by
      intro c h
      have hn : ¬ (c.toNat ≥ 97 ∧ c.toNat ≤ 122) := by
        simp only [Char.isUpper, Char.isDigit, Bool.and_eq_true, decide_eq_true_eq, ge_iff_le,
          UInt32.le_def, BitVec.le_def] at h
        simp only [Char.toNat, UInt32.toNat]
        have e1 : (90 : UInt32).toBitVec.toNat = 90 := rfl
        have e2 : (57 : UInt32).toBitVec.toNat = 57 := rfl
        have e3 : (65 : UInt32).toBitVec.toNat = 65 := rfl
        have e4 : (48 : UInt32).toBitVec.toNat = 48 := rfl
        rw [e1, e2, e3, e4] at h
        omega
      simp only [Char.toUpper, hn, if_false]
    have hl : ∀ l : List Char, (∀ c ∈ l, c.isUpper = true ∨ c.isDigit = true) →
        l.map Char.toUpper = l := by
      intro l
      induction l with
      | nil => intro _; rfl
      | cons a t ih =>
        intro h
        rw [List.map_cons, hc a (h a (List.mem_cons_self _ _)),
          ih (fun c hc2 => h c (List.mem_cons_of_mem _ hc2))]
    show (⟨s.data.map Char.toUpper⟩ : String) = s
    rw [hl s.data hs]

/-- The forms `YYYY-MM-DD` and `YYYY-MM-DDTHH:mm:ss` of the ECMAScript date-time string
format: the date-only form is midnight UTC, the date-time form without a zone designator is
a local time, turned into an instant with the given offsets; every other string is an
invalid date. -/
def parseIsoString (offsetLocal : Int → Int) (s : String) : JsDate :=
  match s.data with
  | [y1, y2, y3, y4, '-', m1, m2, '-', d1, d2, 'T', h1, h2, ':', n1, n2, ':', s1, s2] =>
    match parseIsoDateOnly ⟨[y1, y2, y3, y4, '-', m1, m2, '-', d1, d2]⟩,
        digitVal h1, digitVal h2, digitVal n1, digitVal n2, digitVal s1, digitVal s2 with
    | .valid t, some a, some b, some c, some e, some f, some g =>
      let hh := a * 10 + b
      let mm := c * 10 + e
      let ss := f * 10 + g
      if (hh ≤ 23 ∧ mm ≤ 59 ∧ ss ≤ 59) ∨ (hh = 24 ∧ mm = 0 ∧ ss = 0) then
        let tl := t + hh * 3600000 + mm * 60000 + ss * 1000
        timeClip (tl - offsetLocal tl)
      else .invalid
    | _, _, _, _, _, _, _ => .invalid
  | _ => parseIsoDateOnly s

/-- The day number of the first Sunday on or after day number `d`; the weekday of a day
number is `(d + 4) mod 7` with Sunday 0, 1970-01-01 being a Thursday. -/
def sundayOnOrAfter (d : Int) : Int := d + (7 - (d + 4) % 7) % 7

/-- The instant daylight saving time starts in Los Angeles in year `y`, by the rule in force
since 2007: the second Sunday of March at 02:00 standard time, which is 10:00 UTC. -/
def laDstStart (y : Int) : Int :=
  (sundayOnOrAfter (daysFromCivil y 3 1) + 7) * msPerDay + 10 * 3600000

/-- The instant daylight saving time ends in Los Angeles in year `y`: the first Sunday of
November at 02:00 daylight time, which is 09:00 UTC. -/
def laDstEnd (y : Int) : Int :=
  sundayOnOrAfter (daysFromCivil y 11 1) * msPerDay + 9 * 3600000

/-- The offset of Los Angeles at the instant `t`: UTC-7 under daylight saving time, UTC-8
otherwise. -/
def laOffset (t : Int) : Int :=
  let y := (civilFromDays (day t)).1
  if laDstStart y ≤ t ∧ t < laDstEnd y then -25200000 else -28800000

/-- The offset of Los Angeles for the local time value `t`; a local time that is skipped or
repeated at a transition takes the offset in force before the transition. -/
def laOffsetLocal (t : Int) : Int :=
  let y := (civilFromDays (day t)).1
  if laDstStart y ≤ t + 25200000 ∧ t + 25200000 < laDstEnd y then -25200000 else -28800000

/-- A browser in Los Angeles: ISO date and date-time strings, Pacific time with daylight
saving, ASCII upper-casing. -/
def laHost : Host :=
  { istHost with
    parseDateString := parseIsoString laOffsetLocal
    tzOffset := laOffset
    tzOffsetLocal := laOffsetLocal }

/-- A record is dated inside the trailing window of the specification: its date is valid and
lies between `now - 30 days` and `now`, both included. -/
def inDailyWindow (H : Host) (now : Int) (inv : Invoice) : Bool :=
  match parseDate H inv.invoiceDate with
  | some (.valid t) => decide (now - 30 * msPerDay ≤ t) && decide (t ≤ now)
  | _ => false

/-! ## Sample data -/

/-- A gold invoice of 5 January 2024, total 100. -/
def jan05 : Invoice :=
  { id := 1, invoiceDate := .str "2024-01-05", metalType := .str "GOLD24",
    amountWithoutGst := .numeric 90, gstAmount := .numeric 10, totalAmount := .numeric 100 }

/-- A silver invoice of 20 January 2024, total 200. -/
def jan20 : Invoice :=
  { id := 2, invoiceDate := .str "2024-01-20", metalType := .str "silver24",
    amountWithoutGst := .numeric 180, gstAmount := .numeric 20, totalAmount := .numeric 200 }

/-- An invoice of 1 December 2023 without a metal type, total 50. -/
def dec01 : Invoice :=
  { id := 3, invoiceDate := .str "2023-12-01", metalType := .null,
    amountWithoutGst := .numeric 45, gstAmount := .null, totalAmount := .numeric 50 }

/-- An invoice dated 1 March 2024, total 100. -/
def mar01 : Invoice :=
  { id := 4, invoiceDate := .str "2024-03-01", metalType := .str "GOLD24",
    amountWithoutGst := .numeric 90, gstAmount := .numeric 10, totalAmount := .numeric 100 }

/-- The instant 2024-02-01T00:00:00Z. -/
def feb01 : Int := 1706745600000

/-- An invoice whose date does not parse, total 50. -/
def badDate : Invoice :=
  { id := 5, invoiceDate := .str "abc", metalType := .str "GOLD24",
    amountWithoutGst := .numeric 45, gstAmount := .numeric 5, totalAmount := .numeric 50 }

/-- An invoice of 7 January 2024 whose total and GST amount are not numeric. -/
def badTotal : Invoice :=
  { id := 6, invoiceDate := .str "2024-01-07", metalType := .str "GOLD24",
    amountWithoutGst := .numeric 45, gstAmount := .nonNumeric, totalAmount := .nonNumeric }

/-- An invoice with metal type `PLATINUM`, amount 700 before GST. -/
def platinum : Invoice :=
  { id := 8, invoiceDate := .str "2024-01-09", metalType := .str "PLATINUM",
    amountWithoutGst := .numeric 700, gstAmount := .numeric 21, totalAmount := .numeric 721 }

/-- The three records of the invested-totals example: `GOLD24` 1000. -/
def gold1000 : Invoice :=
  { id := 9, invoiceDate := .null, metalType := .str "GOLD24",
    amountWithoutGst := .numeric 1000, gstAmount := .null, totalAmount := .null }

/-- The three records of the invested-totals example: `SILVER24` 500. -/
def silver500 : Invoice :=
  { id := 10, invoiceDate := .null, metalType := .str "SILVER24",
    amountWithoutGst := .numeric 500, gstAmount := .null, totalAmount := .null }

/-- The three records of the invested-totals example: `GOLD24` 2000. -/
def gold2000 : Invoice :=
  { id := 11, invoiceDate := .null, metalType := .str "GOLD24",
    amountWithoutGst := .numeric 2000, gstAmount := .null, totalAmount := .null }

/-- An invoice of 1 January 2024, total 30. -/
def jan01 : Invoice :=
  { id := 12, invoiceDate := .str "2024-01-01", metalType := .str "SILVER24",
    amountWithoutGst := .numeric 27, gstAmount := .numeric 3, totalAmount := .numeric 30 }

/-- An invoice without a date, total 10. -/
def undated : Invoice :=
  { id := 13, invoiceDate := .null, metalType := .str "GOLD24",
    amountWithoutGst := .numeric 9, gstAmount := .numeric 1, totalAmount := .numeric 10 }

/-- An invoice dated 20 January 2024 at 10:00 in the morning, local time. -/
def jan20morning : Invoice :=
  { id := 14, invoiceDate := .str "2024-01-20T10:00:00", metalType := .str "GOLD24",
    amountWithoutGst := .numeric 90, gstAmount := .numeric 10, totalAmount := .numeric 100 }

/-- An invoice dated 1 February 2024, total 100. -/
def febFirst : Invoice :=
  { id := 15, invoiceDate := .str "2024-02-01", metalType := .str "GOLD24",
    amountWithoutGst := .numeric 90, gstAmount := .numeric 10, totalAmount := .numeric 100 }

/-- An invoice dated 21 October 2024, total 100. -/
def oct21 : Invoice :=
  { id := 16, invoiceDate := .str "2024-10-21", metalType := .str "GOLD24",
    amountWithoutGst := .numeric 90, gstAmount := .numeric 10, totalAmount := .numeric 100 }

/-- The instant 2024-11-20T00:30:00Z, which is 16:30 of 19 November in Los Angeles. -/
def nov20 : Int := 1732062600000

/-! # Theorems -/

/-! ## Lemmas on the filter -/

theorem mem_filteredInvoices (H : Host) (R : List Invoice) (C : Criteria) (inv : Invoice) :
    inv ∈ filteredInvoices H R C ↔ inv ∈ R ∧ keeps H C inv = true := by
  simp [filteredInvoices]

/-! ## Theorems on the filter stage -/

/-- C1. Filtering is idempotent: applying the dashboard filter with criteria `C` to its own
output gives that output again. -/
theorem filteredInvoices_idempotent (H : Host) (R : List Invoice) (C : Criteria) :
    filteredInvoices H (filteredInvoices H R C) C = filteredInvoices H R C := by
  simp [filteredInvoices, List.filter_filter]

/-- C2 (evaluation of the code at the failing input). In a browser in Los Angeles, with no
start date, end date `"2024-01-20"` and metal filter `"ALL"`, the record dated
`"2024-01-20T10:00:00"` is dropped. Its date is the instant 1705773600000, which is
20 January 2024 both in local time (10:00) and in UTC (18:00). The end bound is the end of the
local day of `new Date("2024-01-20")`, midnight UTC, which is still 19 January there: the
bound is `2024-01-20T07:59:59.999Z`, ten hours before the record. The record `jan20`,
whose date is the very string of the end date, is kept there. -/
theorem endDate_drops_same_day_record :
    filteredInvoices laHost [jan20morning] ⟨"", "2024-01-20", "ALL"⟩ = [] ∧
    keeps laHost ⟨"", "2024-01-20", "ALL"⟩ jan20 = true ∧
    newDate laHost jan20morning.invoiceDate = .valid 1705773600000 ∧
    civilFromDays (day (localTime laHost 1705773600000)) = (2024, 1, 20) ∧
    civilFromDays (day 1705773600000) = (2024, 1, 20) ∧
    setHours laHost (newDate laHost (.str "2024-01-20")) 23 59 59 999
      = .valid 1705737599999 ∧
    toISOString (.valid 1705737599999) = .ok "2024-01-20T07:59:59.999Z" := by
  refine ⟨?_, ?_, ?_, ?_, ?_, ?_, ?_⟩
  · decide
  · decide
  · decide
  · decide
  · decide
  · decide
  · rfl

theorem keeps_metal_only (H : Host) (mf : String) (inv : Invoice) (hmf : mf ≠ "ALL") :
    keeps H ⟨"", "", mf⟩ inv = startsWith (H.toUpperCase (inv.metalType.orElse "")) mf := by
  simp [keeps, hmf]

theorem startsWith_empty_left (p : String) (hp : p ≠ "") : startsWith "" p = false := by
  have hne : p.data ≠ [] := fun h => hp (String.ext h)
  cases hd : p.data with
  | nil => exact absurd hd hne
  | cons c cs => simp [startsWith, hd, List.isPrefixOf]

theorem orElse_of_missing (t : Text) (h : t.missing) : t.orElse "" = "" := by
  cases t <;> simp_all [Text.orElse, Text.missing]

theorem orElse_of_str (s : String) : (Text.str s).orElse "" = s := by
  by_cases h : s = "" <;> simp [Text.orElse, h]

/-- C3 (evaluation of the code at the failing input). A record whose `invoiceDate` is the
unparseable string `"abc"` is kept by the filter although both date bounds are set: the
helper `parseDate` returns an invalid `Date`, not `null`, and every comparison with an
invalid date is false. -/
theorem unparseable_date_kept :
    filteredInvoices istHost [⟨7, .str "abc", .str "GOLD24", .null, .null, .null⟩]
        ⟨"2024-01-01", "2024-01-31", "ALL"⟩
      = [⟨7, .str "abc", .str "GOLD24", .null, .null, .null⟩] := by
  decide

/-- C4. Metal filter. With no date bounds and `metalFilter` one of `"GOLD"`, `"SILVER"`, a
record is in the output exactly when it is in the input, its `metalType` is a non-empty
string, and that string upper-cased starts with the filter token; a record whose `metalType`
is `null`, `undefined` or empty is never in the output. -/
theorem metal_filter_iff (H : Host) (R : List Invoice) (mf : String)
    (hmf : mf = "GOLD" ∨ mf = "SILVER") (inv : Invoice) :
    (inv ∈ filteredInvoices H R ⟨"", "", mf⟩ ↔
      inv ∈ R ∧ ¬ inv.metalType.missing ∧
        ∃ s, inv.metalType = .str s ∧ startsWith (H.toUpperCase s) mf = true) ∧
    (inv.metalType.missing → inv ∉ filteredInvoices H R ⟨"", "", mf⟩) := by
  have hall : mf ≠ "ALL" := by rcases hmf with h | h <;> rw [h] <;> decide
  have hne : mf ≠ "" := by rcases hmf with h | h <;> rw [h] <;> decide
  have hmiss : inv.metalType.missing → keeps H ⟨"", "", mf⟩ inv = false := by
    intro h
    rw [keeps_metal_only H mf inv hall, orElse_of_missing _ h, H.upper_empty]
    exact startsWith_empty_left mf hne
  constructor
  · rw [mem_filteredInvoices]
    constructor
    · rintro ⟨hmem, hk⟩
      have hnm : ¬ inv.metalType.missing := fun h => by simp [hmiss h] at hk
      refine ⟨hmem, hnm, ?_⟩
      cases hmt : inv.metalType with
      | null => simp [hmt, Text.missing] at hnm
      | undefined => simp [hmt, Text.missing] at hnm
      | str s =>
        refine ⟨s, rfl, ?_⟩
        rw [keeps_metal_only H mf inv hall, hmt, orElse_of_str] at hk
        exact hk
    · rintro ⟨hmem, _, s, hs, hst⟩
      refine ⟨hmem, ?_⟩
      rw [keeps_metal_only H mf inv hall, hs, orElse_of_str]
      exact hst
  · intro h hin
    rw [mem_filteredInvoices] at hin
    simp [hmiss h] at hin

/-- C5. The filter preserves order: its output is a sublist of the input, that is, records of
the input only, in their relative order, none repeated more often than in the input. The
input list is a value and is not changed. -/
theorem filteredInvoices_sublist (H : Host) (R : List Invoice) (C : Criteria) :
    (filteredInvoices H R C).Sublist R := by
  unfold filteredInvoices
  exact List.filter_sublist R

/-! ## Lemmas on buckets -/

@[simp] theorem JsNum.num_add_num (a b : ℚ) : JsNum.num a + JsNum.num b = JsNum.num (a + b) := rfl

theorem JsNum.add_eq (a b : JsNum) : a.add b = a + b := rfl

theorem JsNum.zero_eq : JsNum.num 0 = 0 := rfl

@[simp] theorem JsNum.orZero_num (q : ℚ) : (JsNum.num q).orZero = JsNum.num q := by
  by_cases h : q = 0 <;> simp [JsNum.orZero, JsNum.truthy, h]

theorem getOrZero_nil (k : String) : getOrZero [] k = 0 := rfl

theorem getOrZero_cons (k' : String) (w : JsNum) (tl : Buckets) (k : String) :
    getOrZero ((k', w) :: tl) k = if k' = k then w.orZero else getOrZero tl k := by
  unfold getOrZero
  by_cases h : k' = k <;> simp [mapGet, h]

theorem addEntry_nil (k : String) (x : JsNum) : addEntry [] k x = [(k, x)] := by
  show [(k, (0 : JsNum) + x)] = [(k, x)]
  rw [zero_add]

theorem addEntry_cons (k' : String) (w : JsNum) (tl : Buckets) (k : String) (x : JsNum) :
    addEntry ((k', w) :: tl) k x =
      if k' = k then (k', w.orZero + x) :: tl else (k', w) :: addEntry tl k x := by
  unfold addEntry
  rw [getOrZero_cons]
  by_cases h : k' = k <;> simp [mapSet, h, JsNum.add_eq]

theorem mem_keys_addEntry (b : Buckets) (k : String) (x : JsNum) (k' : String) :
    k' ∈ (addEntry b k x).map (·.1) ↔ k' ∈ b.map (·.1) ∨ k' = k := by
  induction b with
  | nil => simp [addEntry_nil]
  | cons hd tl ih =>
    obtain ⟨a, w⟩ := hd
    rw [addEntry_cons]
    by_cases h : a = k
    · subst h
      simp only [if_true, List.map_cons, List.mem_cons]
      tauto
    · simp only [h, if_false, List.map_cons, List.mem_cons, ih]
      tauto

theorem nodup_keys_addEntry (b : Buckets) (k : String) (x : JsNum)
    (hb : (b.map (·.1)).Nodup) : ((addEntry b k x).map (·.1)).Nodup := by
  induction b with
  | nil => simp [addEntry_nil]
  | cons hd tl ih =>
    obtain ⟨a, w⟩ := hd
    rw [addEntry_cons]
    simp only [List.map_cons, List.nodup_cons] at hb
    by_cases h : a = k
    · simp only [h, if_true, List.map_cons, List.nodup_cons]
      rw [← h]
      exact hb
    · simp only [h, if_false, List.map_cons, List.nodup_cons]
      refine ⟨?_, ih hb.2⟩
      rw [mem_keys_addEntry]
      rintro (h1 | h1)
      · exact hb.1 h1
      · exact h h1

theorem allNum_addEntry (b : Buckets) (k : String) (q : ℚ) (hb : allNum b) :
    allNum (addEntry b k (.num q)) := by
  induction b with
  | nil =>
    rw [addEntry_nil]
    intro e he
    simp only [List.mem_singleton] at he
    exact ⟨q, by rw [he]⟩
  | cons hd tl ih =>
    obtain ⟨a, w⟩ := hd
    have htl : allNum tl := fun e he => hb e (List.mem_cons_of_mem _ he)
    obtain ⟨r, hr⟩ := hb (a, w) (List.mem_cons_self _ _)
    simp only at hr
    rw [addEntry_cons]
    by_cases h : a = k
    · simp only [h, if_true]
      intro e he
      rcases List.mem_cons.1 he with he | he
      · exact ⟨r + q, by rw [he, hr]; simp⟩
      · exact htl e he
    · simp only [h, if_false]
      intro e he
      rcases List.mem_cons.1 he with he | he
      · exact ⟨r, by rw [he, hr]⟩
      · exact ih htl e he

theorem getOrZero_addEntry (b : Buckets) (k : String) (q : ℚ) (k' : String) (hb : allNum b) :
    getOrZero (addEntry b k (.num q)) k'
      = getOrZero b k' + (if k = k' then .num q else 0) := by
  induction b with
  | nil =>
    rw [addEntry_nil, getOrZero_cons, getOrZero_nil]
    by_cases h : k = k' <;> simp [h]
  | cons hd tl ih =>
    obtain ⟨a, w⟩ := hd
    have htl : allNum tl := fun e he => hb e (List.mem_cons_of_mem _ he)
    obtain ⟨r, hr⟩ := hb (a, w) (List.mem_cons_self _ _)
    simp only at hr
    subst hr
    rw [addEntry_cons]
    by_cases h : a = k
    · subst h
      simp only [if_true, getOrZero_cons]
      by_cases h2 : a = k' <;> simp [h2]
    · simp only [h, if_false, getOrZero_cons, ih htl]
      by_cases h2 : a = k'
      · have h3 : ¬ k = k' := fun h3 => h (h2.trans h3.symm)
        simp [h2, h3]
      · simp [h2]

theorem sumValues_addEntry (b : Buckets) (k : String) (q : ℚ) (hb : allNum b) :
    sumValues (addEntry b k (.num q)) = sumValues b + .num q := by
  induction b with
  | nil => simp [addEntry_nil, sumValues]
  | cons hd tl ih =>
    obtain ⟨a, w⟩ := hd
    have htl : allNum tl := fun e he => hb e (List.mem_cons_of_mem _ he)
    obtain ⟨r, hr⟩ := hb (a, w) (List.mem_cons_self _ _)
    simp only at hr
    subst hr
    rw [addEntry_cons]
    by_cases h : a = k
    · simp only [h, if_true, sumValues, List.map_cons, List.sum_cons, JsNum.orZero_num]
      abel
    · have ih2 := ih htl
      simp only [sumValues] at ih2
      simp only [h, if_false, sumValues, List.map_cons, List.sum_cons, ih2]
      abel

theorem accumulate_snoc (E : List (String × JsNum)) (e : String × JsNum) :
    accumulate (E ++ [e]) = addEntry (accumulate E) e.1 e.2 := by
  simp [accumulate, List.foldl_append]

theorem nodup_keys_accumulate (E : List (String × JsNum)) :
    ((accumulate E).map (·.1)).Nodup := by
  induction E using List.reverseRecOn with
  | nil => simp [accumulate]
  | append_singleton l a ih =>
    rw [accumulate_snoc]
    exact nodup_keys_addEntry _ _ _ ih

theorem mem_keys_accumulate (E : List (String × JsNum)) (k : String) :
    k ∈ (accumulate E).map (·.1) ↔ ∃ e ∈ E, e.1 = k := by
  induction E using List.reverseRecOn with
  | nil => simp [accumulate]
  | append_singleton l a ih =>
    rw [accumulate_snoc, mem_keys_addEntry, ih]
    constructor
    · rintro (⟨e, he, hk⟩ | h)
      · exact ⟨e, List.mem_append_left _ he, hk⟩
      · exact ⟨a, by simp, h.symm⟩
    · rintro ⟨e, he, hk⟩
      rcases List.mem_append.1 he with he | he
      · exact Or.inl ⟨e, he, hk⟩
      · simp only [List.mem_singleton] at he
        subst he
        exact Or.inr hk.symm

theorem allNum_accumulate (E : List (String × JsNum)) (hE : ∀ e ∈ E, ∃ q, e.2 = .num q) :
    allNum (accumulate E) := by
  induction E using List.reverseRecOn with
  | nil => intro e he; simp [accumulate] at he
  | append_singleton l a ih =>
    rw [accumulate_snoc]
    obtain ⟨q, hq⟩ := hE a (by simp)
    rw [hq]
    exact allNum_addEntry _ _ _ (ih (fun e he => hE e (List.mem_append_left _ he)))

theorem getOrZero_accumulate (E : List (String × JsNum)) (hE : ∀ e ∈ E, ∃ q, e.2 = .num q)
    (k : String) :
    getOrZero (accumulate E) k = ((E.filter (fun e => decide (e.1 = k))).map (·.2)).sum := by
  induction E using List.reverseRecOn with
  | nil => simp [accumulate, getOrZero_nil]
  | append_singleton l a ih =>
    have hl : ∀ e ∈ l, ∃ q, e.2 = .num q := fun e he => hE e (List.mem_append_left _ he)
    obtain ⟨q, hq⟩ := hE a (by simp)
    rw [accumulate_snoc, hq, getOrZero_addEntry _ _ _ _ (allNum_accumulate l hl), ih hl,
      List.filter_append, List.map_append, List.sum_append]
    by_cases h : a.1 = k <;> simp [List.filter_cons, h, hq]

theorem sumValues_accumulate (E : List (String × JsNum)) (hE : ∀ e ∈ E, ∃ q, e.2 = .num q) :
    sumValues (accumulate E) = (E.map (·.2)).sum := by
  induction E using List.reverseRecOn with
  | nil => simp [accumulate, sumValues]
  | append_singleton l a ih =>
    have hl : ∀ e ∈ l, ∃ q, e.2 = .num q := fun e he => hE e (List.mem_append_left _ he)
    obtain ⟨q, hq⟩ := hE a (by simp)
    rw [accumulate_snoc, hq, sumValues_addEntry _ _ _ (allNum_accumulate l hl), ih hl,
      List.map_append, List.sum_append]
    simp [hq]

/-- In a map without repeated keys, an entry's value is what `get` returns for its key. -/
theorem mapGet_of_mem (b : Buckets) (hb : (b.map (·.1)).Nodup) (k : String) (v : JsNum)
    (h : (k, v) ∈ b) : mapGet b k = some v := by
  induction b with
  | nil => simp at h
  | cons hd tl ih =>
    obtain ⟨a, w⟩ := hd
    simp only [List.map_cons, List.nodup_cons] at hb
    rcases List.mem_cons.1 h with h | h
    · injection h with h1 h2
      subst h1; subst h2
      simp [mapGet]
    · have hne : a ≠ k := by
        intro hak
        apply hb.1
        rw [hak]
        exact List.mem_map.2 ⟨(k, v), h, rfl⟩
      simp [mapGet, hne, ih hb.2 h]

theorem value_of_mem_accumulate (E : List (String × JsNum))
    (hE : ∀ e ∈ E, ∃ q, e.2 = .num q) (k : String) (v : JsNum) (h : (k, v) ∈ accumulate E) :
    v = ((E.filter (fun e => decide (e.1 = k))).map (·.2)).sum := by
  have hget := mapGet_of_mem _ (nodup_keys_accumulate E) k v h
  obtain ⟨q, hq⟩ := allNum_accumulate E hE (k, v) h
  simp only at hq
  rw [← getOrZero_accumulate E hE k]
  unfold getOrZero
  rw [hget, hq]
  simp

/-! ## Lemmas on the monthly reduction -/

theorem monthlyStep_eq (H : Host) (b : Buckets) (inv : Invoice) :
    monthlyStep H b inv =
      match monthlyEntry H inv with
      | none => b
      | some e => addEntry b e.1 e.2 := by
  unfold monthlyStep monthlyEntry
  cases parseDate H inv.invoiceDate with
  | none => rfl
  | some d =>
    by_cases h : inv.totalAmount.isNullish = true
    · simp [h]
    · simp [h, addEntry]

theorem foldl_monthlyStep (H : Host) (F : List Invoice) (b : Buckets) :
    F.foldl (monthlyStep H) b
      = (F.filterMap (monthlyEntry H)).foldl (fun b e => addEntry b e.1 e.2) b := by
  induction F generalizing b with
  | nil => rfl
  | cons inv tl ih =>
    rw [List.foldl_cons, ih, monthlyStep_eq, List.filterMap_cons]
    cases monthlyEntry H inv with
    | none => rfl
    | some e => rfl

theorem monthlyBuckets_eq (H : Host) (F : List Invoice) :
    F.foldl (monthlyStep H) [] = accumulate (F.filterMap (monthlyEntry H)) :=
  foldl_monthlyStep H F []

theorem monthlyEntry_numeric (H : Host) (F : List Invoice) (hnum : numericTotals F) :
    ∀ e ∈ F.filterMap (monthlyEntry H), ∃ q, e.2 = .num q := by
  intro e he
  obtain ⟨inv, hinv, hent⟩ := List.mem_filterMap.1 he
  have hn := hnum inv hinv
  unfold monthlyEntry at hent
  cases hp : parseDate H inv.invoiceDate with
  | none => simp [hp] at hent
  | some d =>
    rw [hp] at hent
    cases ht : inv.totalAmount with
    | null => simp [ht, Amount.isNullish] at hent
    | undefined => simp [ht, Amount.isNullish] at hent
    | nonNumeric => exact absurd ht hn
    | numeric q =>
      simp [ht, Amount.isNullish, Amount.toNumber] at hent
      exact ⟨q, by rw [← hent]⟩

/-! ## Lemmas on the KPI reduction -/

theorem foldl_kpiStep (F : List Invoice) (acc : JsNum × JsNum) :
    F.foldl kpiStep acc =
      (acc.1 + ((F.filter (fun inv => !inv.totalAmount.isNullish)).map
          (fun inv => inv.totalAmount.toNumber)).sum,
       acc.2 + ((F.filter (fun inv => !inv.gstAmount.isNullish)).map
          (fun inv => inv.gstAmount.toNumber)).sum) := by
  induction F generalizing acc with
  | nil => simp
  | cons inv tl ih =>
    rw [List.foldl_cons, ih]
    unfold kpiStep
    by_cases h1 : inv.totalAmount.isNullish = true <;>
      by_cases h2 : inv.gstAmount.isNullish = true <;>
      simp [List.filter_cons, h1, h2, JsNum.add_eq, add_assoc]

theorem sum_numeric (L : List JsNum) (hL : ∀ x ∈ L, ∃ q, x = .num q) : ∃ t, L.sum = .num t := by
  induction L with
  | nil => exact ⟨0, rfl⟩
  | cons x tl ih =>
    obtain ⟨q, hq⟩ := hL x (List.mem_cons_self _ _)
    obtain ⟨t, ht⟩ := ih (fun y hy => hL y (List.mem_cons_of_mem _ hy))
    exact ⟨q + t, by rw [List.sum_cons, hq, ht]; rfl⟩

theorem presentTotals_numeric (F : List Invoice) (hnum : numericTotals F) :
    ∀ x ∈ (F.filter (fun inv => !inv.totalAmount.isNullish)).map
        (fun inv => inv.totalAmount.toNumber), ∃ q, x = .num q := by
  intro x hx
  obtain ⟨inv, hinv, hxe⟩ := List.mem_map.1 hx
  obtain ⟨hmem, hnn⟩ := List.mem_filter.1 hinv
  have hn := hnum inv hmem
  cases ht : inv.totalAmount with
  | null => simp [ht, Amount.isNullish] at hnn
  | undefined => simp [ht, Amount.isNullish] at hnn
  | nonNumeric => exact absurd ht hn
  | numeric q => exact ⟨q, by rw [← hxe, ht]; rfl⟩

theorem kpi_fields (F : List Invoice) :
    (kpi F).count = F.length ∧
    (kpi F).totalSpend = ((F.filter (fun inv => !inv.totalAmount.isNullish)).map
        (fun inv => inv.totalAmount.toNumber)).sum ∧
    (kpi F).gstPaid = ((F.filter (fun inv => !inv.gstAmount.isNullish)).map
        (fun inv => inv.gstAmount.toNumber)).sum := by
  unfold kpi
  by_cases h : F.length = 0
  · have hF : F = [] := List.length_eq_zero.1 h
    subst hF
    exact ⟨rfl, rfl, rfl⟩
  · simp only [h, if_false, foldl_kpiStep]
    refine ⟨trivial, ?_, ?_⟩
    · exact zero_add _
    · exact zero_add _

theorem kpi_avg (F : List Invoice) (h : F ≠ []) :
    (kpi F).avgInvoice = (kpi F).totalSpend.div (.num F.length) := by
  have hl : F.length ≠ 0 := fun h0 => h (List.length_eq_zero.1 h0)
  have hpos : F.length > 0 := Nat.pos_of_ne_zero hl
  simp [kpi, hl, hpos]

/-! ## Theorems on the KPI reduction -/

/-- C6. KPI average consistency over rational amounts: when no present `totalAmount` is
non-numeric and the count is positive, `avgInvoice` and `totalSpend` are numbers with
`avgInvoice * count = totalSpend` exactly; when the count is 0, `avgInvoice` is 0. -/
theorem kpi_average_consistent (F : List Invoice) (hnum : numericTotals F) :
    (0 < (kpi F).count →
      ∃ avg total : ℚ, (kpi F).avgInvoice = .num avg ∧ (kpi F).totalSpend = .num total ∧
        avg * ((kpi F).count : ℚ) = total) ∧
    ((kpi F).count = 0 → (kpi F).avgInvoice = .num 0) := by
  obtain ⟨hc, ht, _⟩ := kpi_fields F
  constructor
  · intro hpos
    rw [hc] at hpos
    have hne : F ≠ [] := fun h => by simp [h] at hpos
    obtain ⟨t, hsum⟩ := sum_numeric _ (presentTotals_numeric F hnum)
    have hq : ((F.length : ℕ) : ℚ) ≠ 0 := by exact_mod_cast (Nat.pos_iff_ne_zero.1 hpos)
    refine ⟨t / (F.length : ℚ), t, ?_, ?_, ?_⟩
    · rw [kpi_avg F hne, ht, hsum]
      simp [JsNum.div, hq]
    · rw [ht, hsum]
    · rw [hc]
      exact div_mul_cancel₀ t hq
  · intro h0
    rw [hc] at h0
    have hF : F = [] := List.length_eq_zero.1 h0
    subst hF
    rfl

/-- C7. KPI sums: `count` is the length of the list, `totalSpend` the sum of the present
`totalAmount`s, `gstPaid` the sum of the present `gstAmount`s (sums of JavaScript numbers,
`null` and `undefined` skipped); on the empty list all four fields are 0. -/
theorem kpi_sums (F : List Invoice) :
    (kpi F).count = F.length ∧
    (kpi F).totalSpend = ((F.filter (fun inv => !inv.totalAmount.isNullish)).map
        (fun inv => inv.totalAmount.toNumber)).sum ∧
    (kpi F).gstPaid = ((F.filter (fun inv => !inv.gstAmount.isNullish)).map
        (fun inv => inv.gstAmount.toNumber)).sum ∧
    kpi [] = { totalSpend := .num 0, gstPaid := .num 0, count := 0, avgInvoice := .num 0 } := by
  obtain ⟨h1, h2, h3⟩ := kpi_fields F
  exact ⟨h1, h2, h3, rfl⟩

theorem parseDate_eq_none (H : Host) (t : Text) : parseDate H t = none ↔ t.missing = true := by
  cases t with
  | null => simp [parseDate, Text.truthy, Text.missing]
  | undefined => simp [parseDate, Text.truthy, Text.missing]
  | str s => by_cases h : s = "" <;> simp [parseDate, Text.truthy, Text.missing, h]

theorem monthlyEntry_eq (H : Host) (inv : Invoice) :
    monthlyEntry H inv =
      if inv.invoiceDate.missing || inv.totalAmount.isNullish then none
      else some (monthKey H (newDate H inv.invoiceDate), inv.totalAmount.toNumber) := by
  unfold monthlyEntry
  cases hp : parseDate H inv.invoiceDate with
  | none =>
    have hm := (parseDate_eq_none H _).1 hp
    simp [hm]
  | some d =>
    have hm : inv.invoiceDate.missing = false := by
      cases hmm : inv.invoiceDate.missing with
      | false => rfl
      | true => rw [(parseDate_eq_none H _).2 hmm] at hp; cases hp
    have hd : d = newDate H inv.invoiceDate := by
      unfold parseDate at hp
      split at hp
      · cases hp
      · injection hp with hp; exact hp.symm
    by_cases hn : inv.totalAmount.isNullish = true <;> simp [hm, hn, hd]

theorem entries_values (H : Host) (F : List Invoice) :
    (F.filterMap (monthlyEntry H)).map (·.2)
      = (F.filter (fun inv => !inv.invoiceDate.missing && !inv.totalAmount.isNullish)).map
          (fun inv => inv.totalAmount.toNumber) := by
  induction F with
  | nil => rfl
  | cons inv tl ih =>
    rw [List.filterMap_cons, List.filter_cons, monthlyEntry_eq]
    cases hm : inv.invoiceDate.missing <;> cases hn : inv.totalAmount.isNullish <;>
      simp [ih]

theorem inMonth_iff (H : Host) (key : String) (inv : Invoice) :
    inMonth H key inv = true ↔ ∃ e, monthlyEntry H inv = some e ∧ e.1 = key := by
  unfold inMonth monthlyEntry
  cases parseDate H inv.invoiceDate with
  | none => simp
  | some d =>
    by_cases hn : inv.totalAmount.isNullish = true
    · simp [hn]
    · simp [hn]

theorem entries_of_key (H : Host) (F : List Invoice) (key : String) :
    ((F.filterMap (monthlyEntry H)).filter (fun e => decide (e.1 = key))).map (·.2)
      = (F.filter (inMonth H key)).map (fun inv => inv.totalAmount.toNumber) := by
  induction F with
  | nil => rfl
  | cons inv tl ih =>
    rw [List.filterMap_cons, List.filter_cons (p := inMonth H key)]
    cases he : monthlyEntry H inv with
    | none =>
      have hf : inMonth H key inv = false := by
        cases hk : inMonth H key inv with
        | false => rfl
        | true =>
          obtain ⟨e, h1, _⟩ := (inMonth_iff H key inv).1 hk
          rw [he] at h1; cases h1
      simp [hf, ih]
    | some e =>
      have hval : e.2 = inv.totalAmount.toNumber := by
        unfold monthlyEntry at he
        cases hp : parseDate H inv.invoiceDate with
        | none => simp [hp] at he
        | some d =>
          rw [hp] at he
          by_cases hn : inv.totalAmount.isNullish = true
          · simp [hn] at he
          · simp [hn] at he
            rw [← he]
      by_cases hk : e.1 = key
      · have ht : inMonth H key inv = true := (inMonth_iff H key inv).2 ⟨e, he, hk⟩
        simp [List.filter_cons, hk, ht, ih, hval]
      · have hf : inMonth H key inv = false := by
          cases hk2 : inMonth H key inv with
          | false => rfl
          | true =>
            obtain ⟨e2, h1, h2⟩ := (inMonth_iff H key inv).1 hk2
            rw [he] at h1
            injection h1 with h1
            exact absurd (h1 ▸ h2) hk
        simp [List.filter_cons, hk, hf, ih]

theorem mem_monthlyData (H : Host) (F : List Invoice) (b : MonthlyBucket) :
    b ∈ monthlyData H F ↔ (b.month, b.total) ∈ accumulate (F.filterMap (monthlyEntry H)) := by
  unfold monthlyData sortEntries
  rw [monthlyBuckets_eq, List.mem_map]
  constructor
  · rintro ⟨e, he, rfl⟩
    exact (List.perm_insertionSort keyBefore _).mem_iff.1 he
  · intro h
    exact ⟨(b.month, b.total), (List.perm_insertionSort keyBefore _).mem_iff.2 h, rfl⟩

theorem monthlyData_totals (H : Host) (F : List Invoice) :
    (monthlyData H F).map (·.total)
      = (sortEntries (accumulate (F.filterMap (monthlyEntry H)))).map (·.2) := by
  unfold monthlyData
  rw [monthlyBuckets_eq, List.map_map]
  rfl

theorem monthlyData_months (H : Host) (F : List Invoice) :
    (monthlyData H F).map (·.month)
      = (sortEntries (accumulate (F.filterMap (monthlyEntry H)))).map (·.1) := by
  unfold monthlyData
  rw [monthlyBuckets_eq, List.map_map]
  rfl

/-! ## Theorems on the monthly reduction -/

/-- When every present `totalAmount` is numeric, the totals of the monthly buckets add up to
the sum of `totalAmount` over the records that have an `invoiceDate` (not `null`, `undefined`
or empty) and a `totalAmount` (not `null` or `undefined`). -/
theorem monthlyData_sum_of_numeric (H : Host) (F : List Invoice) (hnum : numericTotals F) :
    ((monthlyData H F).map (·.total)).sum
      = ((F.filter (fun inv => !inv.invoiceDate.missing && !inv.totalAmount.isNullish)).map
          (fun inv => inv.totalAmount.toNumber)).sum := by
  rw [monthlyData_totals, ← entries_values]
  have hperm := (List.perm_insertionSort keyBefore
    (accumulate (F.filterMap (monthlyEntry H)))).map (·.2)
  unfold sortEntries
  rw [hperm.sum_eq]
  exact sumValues_accumulate _ (monthlyEntry_numeric H F hnum)

/-- The buckets of `monthlyData` by the key the code computes (`monthKey`, from the local
year and month of the parsed date, `NaN-NaN` on an invalid date): a key has a bucket exactly
when some record with a date and a total has that key; when every present total is numeric
the total of a bucket is the sum over the records of its key; no key occurs twice. -/
theorem monthlyData_grouped_by_monthKey (H : Host) (F : List Invoice) :
    (∀ key, (∃ b ∈ monthlyData H F, b.month = key) ↔ ∃ inv ∈ F, inMonth H key inv = true) ∧
    (numericTotals F → ∀ b ∈ monthlyData H F,
      b.total = ((F.filter (inMonth H b.month)).map (fun inv => inv.totalAmount.toNumber)).sum) ∧
    ((monthlyData H F).map (·.month)).Nodup := by
  refine ⟨?_, ?_, ?_⟩
  · intro key
    constructor
    · rintro ⟨b, hb, hk⟩
      rw [mem_monthlyData] at hb
      have hmem : key ∈ (accumulate (F.filterMap (monthlyEntry H))).map (·.1) :=
        List.mem_map.2 ⟨(b.month, b.total), hb, hk⟩
      obtain ⟨e, he, hek⟩ := (mem_keys_accumulate _ key).1 hmem
      obtain ⟨inv, hinv, hent⟩ := List.mem_filterMap.1 he
      exact ⟨inv, hinv, (inMonth_iff H key inv).2 ⟨e, hent, hek⟩⟩
    · rintro ⟨inv, hinv, hin⟩
      obtain ⟨e, hent, hek⟩ := (inMonth_iff H key inv).1 hin
      have hmem : key ∈ (accumulate (F.filterMap (monthlyEntry H))).map (·.1) :=
        (mem_keys_accumulate _ key).2 ⟨e, List.mem_filterMap.2 ⟨inv, hinv, hent⟩, hek⟩
      obtain ⟨e2, he2, hk2⟩ := List.mem_map.1 hmem
      refine ⟨{ month := e2.1, total := e2.2 }, ?_, hk2⟩
      rw [mem_monthlyData]
      exact he2
  · intro hnum b hb
    rw [mem_monthlyData] at hb
    rw [← entries_of_key]
    exact value_of_mem_accumulate _ (monthlyEntry_numeric H F hnum) _ _ hb
  · rw [monthlyData_months]
    unfold sortEntries
    exact ((List.perm_insertionSort keyBefore _).map (·.1)).nodup_iff.2
      (nodup_keys_accumulate _)

/-- C8 (evaluation of the code at the failing input). The records of 5, 7 and 1 January
2024 have totals 100, a value that is not numeric, and 30; each has a date and a total. The
only monthly bucket is `2024-01` with total 30, so the bucket totals add up to 30: the second
record turns the bucket into `NaN`, and `buckets.get(key) || 0` then restarts it from 0, so
the total 100 of the first record is lost. The totals of the three records add up to `NaN`
as a JavaScript sum, and the two numeric ones to 130. -/
theorem monthly_sum_loses_record :
    monthlyData istHost [jan05, badTotal, jan01] = [{ month := "2024-01", total := .num 30 }] ∧
    ((monthlyData istHost [jan05, badTotal, jan01]).map (·.total)).sum = .num 30 ∧
    [jan05, badTotal, jan01].filter
      (fun inv => !inv.invoiceDate.missing && !inv.totalAmount.isNullish)
      = [jan05, badTotal, jan01] ∧
    ([jan05, badTotal, jan01].map (fun inv => inv.totalAmount.toNumber)).sum = .nan ∧
    ([jan05, jan01].map (fun inv => inv.totalAmount.toNumber)).sum = .num 130 := by
  have hk1 : monthKey istHost (.valid 1704412800000) = "2024-01" := by decide
  have hk2 : monthKey istHost (.valid 1704585600000) = "2024-01" := by decide
  have hk3 : monthKey istHost (.valid 1704067200000) = "2024-01" := by decide
  have hp1 : parseDate istHost jan05.invoiceDate = some (.valid 1704412800000) := by decide
  have hp2 : parseDate istHost badTotal.invoiceDate = some (.valid 1704585600000) := by decide
  have hp3 : parseDate istHost jan01.invoiceDate = some (.valid 1704067200000) := by decide
  have hn1 : newDate istHost jan05.invoiceDate = .valid 1704412800000 := by decide
  have hn2 : newDate istHost badTotal.invoiceDate = .valid 1704585600000 := by decide
  have hn3 : newDate istHost jan01.invoiceDate = .valid 1704067200000 := by decide
  have ht1 : jan05.totalAmount = .numeric 100 := rfl
  have ht2 : badTotal.totalAmount = .nonNumeric := rfl
  have ht3 : jan01.totalAmount = .numeric 30 := rfl
  have hout : monthlyData istHost [jan05, badTotal, jan01]
      = [{ month := "2024-01", total := .num 30 }] := by
    simp [monthlyData, monthlyStep, hp1, hp2, hp3, hn1, hn2, hn3, hk1, hk2, hk3, ht1, ht2, ht3,
      Amount.isNullish, Amount.toNumber, getOrZero, mapGet, mapSet, sortEntries, JsNum.add,
      JsNum.orZero, JsNum.truthy]
  refine ⟨hout, ?_, ?_, ?_, ?_⟩
  · rw [hout]
    show JsNum.add (.num 30) (.num 0) = .num 30
    simp [JsNum.add]
  · decide
  · show JsNum.add jan05.totalAmount.toNumber (JsNum.add badTotal.totalAmount.toNumber
      (JsNum.add jan01.totalAmount.toNumber (.num 0))) = .nan
    simp [ht1, ht2, ht3, Amount.toNumber, JsNum.add]
  · show JsNum.add jan05.totalAmount.toNumber
      (JsNum.add jan01.totalAmount.toNumber (.num 0)) = .num 130
    simp [ht1, ht3, Amount.toNumber, JsNum.add]
    norm_num

/-- C9 (evaluation of the code at the failing inputs). In a browser in Los Angeles the
record dated `"2024-02-01"` (midnight UTC, which is 16:00 of 31 January there) is put in the
monthly bucket `2024-01`, the year and month being taken in local time, while `dailyData`,
which takes its key from `toISOString`, puts the same record in the daily bucket
`2024-02-01`. A record whose date does not parse is put in a bucket with the key `NaN-NaN`,
which is no year and month. -/
theorem monthly_key_off_month :
    monthlyData laHost [febFirst] = [{ month := "2024-01", total := .num 100 }] ∧
    dailyData laHost feb01 [febFirst] = .ok [{ date := "2024-02-01", total := .num 100 }] ∧
    monthlyData istHost [badDate] = [{ month := "NaN-NaN", total := .num 50 }] := by
  have hp : parseDate laHost febFirst.invoiceDate = some (.valid 1706745600000) := by decide
  have hk : monthKey laHost (.valid 1706745600000) = "2024-01" := by decide
  have hn : newDate laHost febFirst.invoiceDate = .valid 1706745600000 := by decide
  have hnb : newDate istHost badDate.invoiceDate = .invalid := by decide
  have ht : febFirst.totalAmount = .numeric 100 := rfl
  have hlt : (JsDate.valid 1706745600000).lt (dailyCutoff laHost feb01) = false := by decide
  have hiso : toISOString (.valid 1706745600000) = .ok "2024-02-01T00:00:00.000Z" := by rfl
  have hsl : slice "2024-02-01T00:00:00.000Z" 0 10 = "2024-02-01" := by decide
  have hpb : parseDate istHost badDate.invoiceDate = some .invalid := by decide
  have hkb : monthKey istHost .invalid = "NaN-NaN" := by decide
  have htb : badDate.totalAmount = .numeric 50 := rfl
  refine ⟨?_, ?_, ?_⟩
  · simp [monthlyData, monthlyStep, hp, hn, hk, ht, Amount.isNullish, Amount.toNumber,
      getOrZero, mapGet, mapSet, sortEntries, JsNum.add]
  · simp [dailyData, dailyStep, hp, hlt, hiso, hsl, ht, Amount.isNullish, Amount.toNumber,
      getOrZero, mapGet, mapSet, sortEntries, JsNum.add, bind, Except.bind, pure, Except.pure]
  · simp [monthlyData, monthlyStep, hpb, hnb, hkb, htb, Amount.isNullish, Amount.toNumber,
      getOrZero, mapGet, mapSet, sortEntries, JsNum.add]

/-! ## Lemmas on the daily reduction -/

/-- The cutoff follows the local calendar. In India, where the offset never changes, the
cutoff on 1 February 2024 lies exactly 30 days back. In Los Angeles on 19 November 2024,
16:30 local time, it is 16:30 of 20 October, when daylight saving time was still in force:
one hour more than 30 days back (`2024-10-20T23:30:00.000Z`), so the record dated
`"2024-10-21"`, half an hour before `now - 30 days`, is counted. -/
theorem dailyCutoff_local_calendar :
    dailyCutoff istHost feb01 = .valid (feb01 - 30 * msPerDay) ∧
    dailyCutoff laHost nov20 = .valid (nov20 - 30 * msPerDay - 3600000) ∧
    toISOString (dailyCutoff laHost nov20) = .ok "2024-10-20T23:30:00.000Z" ∧
    newDate laHost oct21.invoiceDate = .valid (nov20 - 30 * msPerDay - 1800000) ∧
    dailyData laHost nov20 [oct21] = .ok [{ date := "2024-10-21", total := .num 100 }] := by
  have hp : parseDate laHost oct21.invoiceDate = some (.valid 1729468800000) := by decide
  have ht : oct21.totalAmount = .numeric 100 := rfl
  have hlt : (JsDate.valid 1729468800000).lt (dailyCutoff laHost nov20) = false := by decide
  have hiso : toISOString (.valid 1729468800000) = .ok "2024-10-21T00:00:00.000Z" := by rfl
  have hsl : slice "2024-10-21T00:00:00.000Z" 0 10 = "2024-10-21" := by decide
  refine ⟨by decide, by decide, by rfl, by decide, ?_⟩
  simp [dailyData, dailyStep, hp, hlt, hiso, hsl, ht, Amount.isNullish, Amount.toNumber,
    getOrZero, mapGet, mapSet, sortEntries, JsNum.add, bind, Except.bind, pure, Except.pure]

/-! ## Theorems on the daily reduction -/

/-- C10 (evaluation of the code at the failing input). Evaluated at the instant `feb01`
(2024-02-01T00:00:00Z), the record `mar01`, dated a month after that instant, lies outside
the window `[now - 30 days, now]`, yet it fills the daily bucket `2024-03-01` with its total
100; with the records outside the window removed the output is empty. The reduction compares
the date with the cutoff only, never with `now`. -/
theorem daily_counts_future_record :
    inDailyWindow istHost feb01 mar01 = false ∧
    dailyData istHost feb01 [mar01] = .ok [{ date := "2024-03-01", total := .num 100 }] ∧
    dailyData istHost feb01 ([mar01].filter (inDailyWindow istHost feb01)) = .ok [] := by
  have hp : parseDate istHost mar01.invoiceDate = some (.valid 1709251200000) := by decide
  have hw : inDailyWindow istHost feb01 mar01 = false := by
    unfold inDailyWindow
    rw [hp]
    decide
  refine ⟨hw, ?_, ?_⟩
  · have hlt : (JsDate.valid 1709251200000).lt (dailyCutoff istHost feb01) = false := by
      decide
    have hiso : toISOString (.valid 1709251200000) = .ok "2024-03-01T00:00:00.000Z" := by rfl
    have hsl : slice "2024-03-01T00:00:00.000Z" 0 10 = "2024-03-01" := by decide
    have hn : mar01.totalAmount = .numeric 100 := rfl
    simp [dailyData, dailyStep, hp, hlt, hiso, hsl, hn, Amount.isNullish, Amount.toNumber,
      getOrZero, mapGet, mapSet, sortEntries, JsNum.add, bind, Except.bind, pure, Except.pure]
  · simp only [List.filter_cons, hw, Bool.false_eq_true, if_false, List.filter_nil]
    rfl

/-! ## Instances at sample data -/

/-- C4 at sample data: the gold invoice passes the filter `"GOLD"`, the invoice without a
metal type does not pass the filter `"SILVER"`. -/
theorem metal_filter_iff_witness :
    jan05 ∈ filteredInvoices istHost [jan05, jan20, dec01] ⟨"", "", "GOLD"⟩ ∧
    dec01 ∉ filteredInvoices istHost [jan05, jan20, dec01] ⟨"", "", "SILVER"⟩ :=
  ⟨(metal_filter_iff istHost [jan05, jan20, dec01] "GOLD" (Or.inl rfl) jan05).1.2
      ⟨by decide, by decide, "GOLD24", rfl, by decide⟩,
   (metal_filter_iff istHost [jan05, jan20, dec01] "SILVER" (Or.inr rfl) dec01).2 (by decide)⟩

/-- C6 at sample data: the two January invoices, and the empty list. -/
theorem kpi_average_consistent_witness :
    (∃ avg total : ℚ, (kpi [jan05, jan20]).avgInvoice = .num avg ∧
      (kpi [jan05, jan20]).totalSpend = .num total ∧
      avg * ((kpi [jan05, jan20]).count : ℚ) = total) ∧
    (kpi []).avgInvoice = .num 0 :=
  ⟨(kpi_average_consistent [jan05, jan20] (by unfold numericTotals; decide)).1 (by decide),
   (kpi_average_consistent [] (by unfold numericTotals; decide)).2 rfl⟩

/-! ## Lemmas on sorting -/

theorem keyBefore_trans {a b c : String × JsNum} (h1 : keyBefore a b) (h2 : keyBefore b c) :
    keyBefore a c := by
  unfold keyBefore at *
  exact lt_trans h1 h2

theorem keyBefore_of_not (a b : String × JsNum) (h : ¬ keyBefore a b) (hne : a.1 ≠ b.1) :
    keyBefore b a := by
  unfold keyBefore at *
  exact lt_of_le_of_ne (not_lt.1 h) (Ne.symm hne)

theorem sorted_orderedInsert (a : String × JsNum) (l : Buckets)
    (hl : l.Sorted keyBefore) (ha : a.1 ∉ l.map (·.1)) :
    (l.orderedInsert keyBefore a).Sorted keyBefore := by
  induction l with
  | nil => simp
  | cons b t ih =>
    have hb : ∀ c ∈ t, keyBefore b c := (List.sorted_cons.1 hl).1
    have ht : t.Sorted keyBefore := (List.sorted_cons.1 hl).2
    have hne : a.1 ≠ b.1 := fun h => ha (by simp [h])
    have hat : a.1 ∉ t.map (·.1) := fun h => ha (by simp at h ⊢; exact Or.inr h)
    by_cases hab : keyBefore a b
    · rw [List.orderedInsert, if_pos hab]
      refine List.sorted_cons.2 ⟨?_, hl⟩
      intro c hc
      rcases List.mem_cons.1 hc with hc | hc
      · rw [hc]; exact hab
      · exact keyBefore_trans hab (hb c hc)
    · rw [List.orderedInsert, if_neg hab]
      refine List.sorted_cons.2 ⟨?_, ih ht hat⟩
      intro c hc
      rcases (List.mem_orderedInsert keyBefore).1 hc with hc | hc
      · rw [hc]; exact keyBefore_of_not a b hab hne
      · exact hb c hc

theorem sorted_sortEntries (b : Buckets) (hb : (b.map (·.1)).Nodup) :
    (sortEntries b).Sorted keyBefore := by
  unfold sortEntries
  induction b with
  | nil => simp
  | cons a t ih =>
    simp only [List.map_cons, List.nodup_cons] at hb
    rw [List.insertionSort]
    apply sorted_orderedInsert a _ (ih hb.2)
    intro h
    apply hb.1
    exact ((List.perm_insertionSort keyBefore t).map (·.1)).mem_iff.1 h

theorem sorted_keys_of_sorted (b : Buckets) (hb : b.Sorted keyBefore) :
    (b.map (·.1)).Sorted (· < ·) := by
  unfold List.Sorted at *
  rw [List.pairwise_map]
  exact hb

/-- C18. Monthly buckets come out sorted by key: the month keys of the output are strictly
increasing in lexicographic order, each before all that follow it, so no key appears twice. -/
theorem monthlyData_sorted (H : Host) (F : List Invoice) :
    ((monthlyData H F).map (·.month)).Sorted (· < ·) ∧
    ((monthlyData H F).map (·.month)).Nodup := by
  have hs : ((monthlyData H F).map (·.month)).Sorted (· < ·) := by
    rw [monthlyData_months]
    exact sorted_keys_of_sorted _ (sorted_sortEntries _ (nodup_keys_accumulate _))
  refine ⟨hs, ?_⟩
  exact hs.imp (fun h => ne_of_lt h)

/-! ## Lemmas on the metal distribution -/

theorem metalStep_eq (H : Host) (b : Buckets) (inv : Invoice) :
    metalStep H b inv = addEntry b (metalKey H inv) (.num 1) := rfl

theorem metalBuckets_eq (H : Host) (F : List Invoice) :
    F.foldl (metalStep H) [] = accumulate (F.map (fun inv => (metalKey H inv, JsNum.num 1))) := by
  unfold accumulate
  rw [List.foldl_map]
  rfl

theorem metalEntries_numeric (H : Host) (F : List Invoice) :
    ∀ e ∈ F.map (fun inv => (metalKey H inv, JsNum.num 1)), ∃ q, e.2 = .num q := by
  intro e he
  obtain ⟨inv, _, rfl⟩ := List.mem_map.1 he
  exact ⟨1, rfl⟩

theorem sum_ones (n : List Invoice) :
    (n.map (fun _ => JsNum.num 1)).sum = .num (n.length : ℚ) := by
  induction n with
  | nil => simp; rfl
  | cons a t ih =>
    rw [List.map_cons, List.sum_cons, ih, JsNum.num_add_num, List.length_cons]
    congr 1
    push_cast
    ring

theorem upper_unknown (H : Host) : H.toUpperCase "UNKNOWN" = "UNKNOWN" :=
  H.upper_fixed "UNKNOWN" (by decide)

theorem text_truthy_eq (t : Text) : t.truthy = !t.missing := by
  cases t with
  | null => rfl
  | undefined => rfl
  | str s => by_cases h : s = "" <;> simp [Text.truthy, Text.missing, h]

theorem orElse_eq_toStr (t : Text) (d : String) (h : t.missing = false) : t.orElse d = t.toStr := by
  cases t with
  | null => simp [Text.missing] at h
  | undefined => simp [Text.missing] at h
  | str s =>
    have hs : s ≠ "" := by simpa [Text.missing] using h
    simp [Text.orElse, Text.toStr, hs]

theorem orElse_eq_default (t : Text) (d : String) (h : t.missing = true) : t.orElse d = d := by
  cases t with
  | null => rfl
  | undefined => rfl
  | str s =>
    have hs : s = "" := by simpa [Text.missing] using h
    simp [Text.orElse, hs]

theorem metalKey_eq_metalLabel (H : Host) (inv : Invoice) : metalKey H inv = metalLabel H inv := by
  unfold metalKey metalLabel
  cases hm : inv.metalType.missing with
  | true =>
    have h1 : startsWith "UNKNOWN" "GOLD" = false := by decide
    have h2 : startsWith "UNKNOWN" "SILVER" = false := by decide
    simp [orElse_eq_default _ _ hm, upper_unknown, h1, h2]
  | false =>
    simp [orElse_eq_toStr _ _ hm]

theorem mem_metalData (H : Host) (F : List Invoice) (e : MetalEntry) :
    e ∈ metalData H F ↔
      (e.name, e.value) ∈ accumulate (F.map (fun inv => (metalKey H inv, JsNum.num 1))) := by
  unfold metalData
  rw [metalBuckets_eq, List.mem_map]
  constructor
  · rintro ⟨x, hx, rfl⟩
    exact hx
  · intro h
    exact ⟨(e.name, e.value), h, rfl⟩

theorem entries_of_label (H : Host) (F : List Invoice) (k : String) :
    ((F.map (fun inv => (metalKey H inv, JsNum.num 1))).filter (fun e => decide (e.1 = k))).map
        (·.2)
      = (F.filter (fun inv => decide (metalLabel H inv = k))).map (fun _ => JsNum.num 1) := by
  induction F with
  | nil => rfl
  | cons inv tl ih =>
    rw [List.map_cons, List.filter_cons, List.filter_cons]
    by_cases h : metalLabel H inv = k
    · have h2 : metalKey H inv = k := by rw [metalKey_eq_metalLabel]; exact h
      simp [h, h2, ih]
    · have h2 : ¬ metalKey H inv = k := by rw [metalKey_eq_metalLabel]; exact h
      simp [h, h2, ih]

/-! ## Theorems on the metal distribution -/

/-- C11. Metal distribution counts are complete: the values of the entries of `metalData`
add up to the number of records, whatever their metal types. -/
theorem metalData_counts_sum (H : Host) (F : List Invoice) :
    ((metalData H F).map (·.value)).sum = .num (F.length : ℚ) := by
  have h1 : (metalData H F).map (·.value)
      = (accumulate (F.map (fun inv => (metalKey H inv, JsNum.num 1)))).map (·.2) := by
    unfold metalData
    rw [metalBuckets_eq, List.map_map]
    rfl
  rw [h1]
  have h2 := sumValues_accumulate _ (metalEntries_numeric H F)
  unfold sumValues at h2
  rw [h2, List.map_map]
  exact sum_ones F

/-! ## Lemmas on the invested totals -/

theorem not_silver_of_gold (s : String) (h : startsWith s "GOLD" = true) :
    startsWith s "SILVER" = false := by
  unfold startsWith at *
  have hg : ("GOLD" : String).data = ['G', 'O', 'L', 'D'] := rfl
  have hs : ("SILVER" : String).data = ['S', 'I', 'L', 'V', 'E', 'R'] := rfl
  rw [hg] at h
  rw [hs]
  cases hd : s.data with
  | nil => rfl
  | cons c cs =>
    rw [hd] at h
    simp only [List.isPrefixOf, Bool.and_eq_true, beq_iff_eq] at h
    have hc : c = 'G' := h.1.symm
    subst hc
    simp [List.isPrefixOf]

theorem base_eq_value (a : Amount) (h : a.isNullish = false) :
    a.toNumber.orZero = .num a.value := by
  cases a with
  | null => simp [Amount.isNullish] at h
  | undefined => simp [Amount.isNullish] at h
  | numeric q => simp [Amount.toNumber, Amount.value]
  | nonNumeric => simp [Amount.toNumber, Amount.value, JsNum.orZero, JsNum.truthy]

theorem investedStep_eq (H : Host) (acc : InvestedTotals) (inv : Invoice) :
    investedStep H acc inv =
      { gold := acc.gold + .num (if investedIn H "GOLD" inv then inv.amountWithoutGst.value else 0)
        silver :=
          acc.silver + .num (if investedIn H "SILVER" inv then inv.amountWithoutGst.value else 0) } := by
  have hz : ∀ x : JsNum, x + JsNum.num 0 = x := fun x => add_zero x
  unfold investedStep investedIn
  rw [text_truthy_eq]
  cases hm : inv.metalType.missing with
  | true => simp [hz]
  | false =>
    cases hn : inv.amountWithoutGst.isNullish with
    | true => simp [hz]
    | false =>
      cases hg : startsWith (H.toUpperCase inv.metalType.toStr) "GOLD" with
      | true =>
        simp [hg, not_silver_of_gold _ hg, hz, base_eq_value _ hn, JsNum.add_eq]
      | false =>
        cases hs : startsWith (H.toUpperCase inv.metalType.toStr) "SILVER" with
        | true => simp [hg, hs, hz, base_eq_value _ hn, JsNum.add_eq]
        | false => simp [hg, hs, hz]

theorem foldl_investedStep (H : Host) (F : List Invoice) (acc : InvestedTotals) :
    F.foldl (investedStep H) acc =
      { gold := acc.gold + .num (((F.filter (investedIn H "GOLD")).map
          (fun inv => inv.amountWithoutGst.value)).sum)
        silver := acc.silver + .num (((F.filter (investedIn H "SILVER")).map
          (fun inv => inv.amountWithoutGst.value)).sum) } := by
  induction F generalizing acc with
  | nil =>
    simp only [List.foldl_nil, List.filter_nil, List.map_nil, List.sum_nil]
    have hz : ∀ x : JsNum, x + JsNum.num 0 = x := fun x => add_zero x
    rw [hz, hz]
  | cons inv tl ih =>
    rw [List.foldl_cons, ih, investedStep_eq]
    simp only [List.filter_cons]
    cases hg : investedIn H "GOLD" inv <;> cases hs : investedIn H "SILVER" inv <;>
      simp [add_assoc]

theorem investedTotals_eq (H : Host) (F : List Invoice) :
    investedTotals H F =
      { gold := .num (((F.filter (investedIn H "GOLD")).map
          (fun inv => inv.amountWithoutGst.value)).sum)
        silver := .num (((F.filter (investedIn H "SILVER")).map
          (fun inv => inv.amountWithoutGst.value)).sum) } := by
  unfold investedTotals
  rw [foldl_investedStep]
  simp

theorem investedStep_other (H : Host) (acc : InvestedTotals) (p : Invoice)
    (hg : investedIn H "GOLD" p = false) (hs : investedIn H "SILVER" p = false) :
    investedStep H acc p = acc := by
  have hz : ∀ x : JsNum, x + JsNum.num 0 = x := fun x => add_zero x
  rw [investedStep_eq, hg, hs]
  simp [hz]

theorem platinum_facts (H : Host) (p : Invoice) (hp : p.metalType = .str "PLATINUM") :
    metalLabel H p = "PLATINUM" ∧ investedIn H "GOLD" p = false ∧
      investedIn H "SILVER" p = false := by
  have hu : H.toUpperCase "PLATINUM" = "PLATINUM" := H.upper_fixed "PLATINUM" (by decide)
  have h1 : startsWith "PLATINUM" "GOLD" = false := by decide
  have h2 : startsWith "PLATINUM" "SILVER" = false := by decide
  have hm : (Text.str "PLATINUM").missing = false := by decide
  refine ⟨?_, ?_, ?_⟩
  · simp [metalLabel, hp, hm, Text.toStr, hu, h1, h2]
  · simp [investedIn, hp, Text.toStr, hu, h1]
  · simp [investedIn, hp, Text.toStr, hu, h2]

/-- C12. Metal label normalization. The names of the entries of `metalData` are pairwise
distinct; an entry with a given name exists exactly when some record has that normalized
label (`UNKNOWN` for a missing metal type, `GOLD` or `SILVER` by prefix of the upper-cased
type, the upper-cased type otherwise); the value of an entry is the number of records with
its label. A record with metal type `"PLATINUM"` has the label `PLATINUM`, alone it gives
the single entry `PLATINUM` with value 1, and wherever it stands in a list it leaves both
invested totals as they are without it. -/
theorem metal_label_normalization (H : Host) (F : List Invoice) :
    ((metalData H F).map (·.name)).Nodup ∧
    (∀ name, (∃ e ∈ metalData H F, e.name = name) ↔ ∃ inv ∈ F, metalLabel H inv = name) ∧
    (∀ e ∈ metalData H F,
      e.value = .num (((F.filter (fun inv => decide (metalLabel H inv = e.name))).length : ℕ) : ℚ)) ∧
    (∀ p : Invoice, p.metalType = .str "PLATINUM" →
      metalLabel H p = "PLATINUM" ∧
      metalData H [p] = [{ name := "PLATINUM", value := .num 1 }] ∧
      ∀ F1 F2 : List Invoice, investedTotals H (F1 ++ p :: F2) = investedTotals H (F1 ++ F2)) := by
  refine ⟨?_, ?_, ?_, ?_⟩
  · have h1 : (metalData H F).map (·.name)
        = (accumulate (F.map (fun inv => (metalKey H inv, JsNum.num 1)))).map (·.1) := by
      unfold metalData
      rw [metalBuckets_eq, List.map_map]
      rfl
    rw [h1]
    exact nodup_keys_accumulate _
  · intro name
    constructor
    · rintro ⟨e, he, hk⟩
      rw [mem_metalData] at he
      have hmem : name ∈ (accumulate (F.map (fun inv => (metalKey H inv, JsNum.num 1)))).map
          (·.1) := List.mem_map.2 ⟨(e.name, e.value), he, hk⟩
      obtain ⟨x, hx, hxk⟩ := (mem_keys_accumulate _ name).1 hmem
      obtain ⟨inv, hinv, rfl⟩ := List.mem_map.1 hx
      exact ⟨inv, hinv, by rw [← metalKey_eq_metalLabel]; exact hxk⟩
    · rintro ⟨inv, hinv, hl⟩
      have hmem : name ∈ (accumulate (F.map (fun inv => (metalKey H inv, JsNum.num 1)))).map
          (·.1) :=
        (mem_keys_accumulate _ name).2
          ⟨(metalKey H inv, .num 1), List.mem_map.2 ⟨inv, hinv, rfl⟩,
            by rw [metalKey_eq_metalLabel]; exact hl⟩
      obtain ⟨x, hx, hxk⟩ := List.mem_map.1 hmem
      refine ⟨{ name := x.1, value := x.2 }, ?_, hxk⟩
      rw [mem_metalData]
      exact hx
  · intro e he
    rw [mem_metalData] at he
    rw [value_of_mem_accumulate _ (metalEntries_numeric H F) _ _ he, entries_of_label, sum_ones]
  · intro p hp
    obtain ⟨hl, hg, hs⟩ := platinum_facts H p hp
    refine ⟨hl, ?_, ?_⟩
    · unfold metalData
      rw [List.foldl_cons, List.foldl_nil, metalStep_eq, metalKey_eq_metalLabel, hl, addEntry_nil]
      rfl
    · intro F1 F2
      unfold investedTotals
      rw [List.foldl_append, List.foldl_cons, investedStep_other H _ p hg hs, List.foldl_append]

/-- C13. Invested totals. The gold total is the sum of `amountWithoutGst` over the records
that have a metal type whose upper-cased text starts with `GOLD` and an `amountWithoutGst`
that is not null; the silver total is the same sum for the prefix `SILVER`; an amount that
is present but not numeric counts 0, and no other record contributes. Three records
`GOLD24` 1000, `SILVER24` 500, `GOLD24` 2000 give gold 3000 and silver 500. -/
theorem invested_totals_sums (H : Host) (F : List Invoice) :
    (investedTotals H F).gold = .num (((F.filter (investedIn H "GOLD")).map
        (fun inv => inv.amountWithoutGst.value)).sum) ∧
    (investedTotals H F).silver = .num (((F.filter (investedIn H "SILVER")).map
        (fun inv => inv.amountWithoutGst.value)).sum) ∧
    (∀ r1 r2 r3 : Invoice,
      r1.metalType = .str "GOLD24" → r1.amountWithoutGst = .numeric 1000 →
      r2.metalType = .str "SILVER24" → r2.amountWithoutGst = .numeric 500 →
      r3.metalType = .str "GOLD24" → r3.amountWithoutGst = .numeric 2000 →
      investedTotals H [r1, r2, r3] = { gold := .num 3000, silver := .num 500 }) := by
  refine ⟨?_, ?_, ?_⟩
  · rw [investedTotals_eq]
  · rw [investedTotals_eq]
  · intro r1 r2 r3 m1 a1 m2 a2 m3 a3
    have hug : H.toUpperCase "GOLD24" = "GOLD24" := H.upper_fixed "GOLD24" (by decide)
    have hus : H.toUpperCase "SILVER24" = "SILVER24" := H.upper_fixed "SILVER24" (by decide)
    have g1 : startsWith "GOLD24" "GOLD" = true := by decide
    have g2 : startsWith "GOLD24" "SILVER" = false := by decide
    have s1 : startsWith "SILVER24" "GOLD" = false := by decide
    have s2 : startsWith "SILVER24" "SILVER" = true := by decide
    have hmg : (Text.str "GOLD24").missing = false := by decide
    have hms : (Text.str "SILVER24").missing = false := by decide
    rw [investedTotals_eq]
    simp [List.filter_cons, investedIn, m1, m2, m3, a1, a2, a3, hmg, hms, Text.toStr, hug, hus,
      g1, g2, s1, s2, Amount.isNullish, Amount.value]
    norm_num

/-! ## Theorems on profits and GST rows -/

theorem profits_gold_eq (inv : InvestedTotals) (gQty gCur sQty sCur : JsNum) :
    (profits inv gQty gCur sQty sCur).gold =
      if !gQty.isNaN && gQty.gt (.num 0) && !gCur.isNaN && gCur.gt (.num 0)
          && inv.gold.gt (.num 0) then (gQty.mul gCur).sub inv.gold else .num 0 := rfl

theorem profits_silver_eq (inv : InvestedTotals) (gQty gCur sQty sCur : JsNum) :
    (profits inv gQty gCur sQty sCur).silver =
      if !sQty.isNaN && sQty.gt (.num 0) && !sCur.isNaN && sCur.gt (.num 0)
          && inv.silver.gt (.num 0) then (sQty.mul sCur).sub inv.silver else .num 0 := rfl

theorem profit_rule (qty cur total : JsNum) :
    (∀ g r i : ℚ, qty = .num g → cur = .num r → total = .num i → 0 < g → 0 < r → 0 < i →
      (if !qty.isNaN && qty.gt (.num 0) && !cur.isNaN && cur.gt (.num 0) && total.gt (.num 0)
        then (qty.mul cur).sub total else JsNum.num 0) = .num (g * r - i)) ∧
    ((¬ ∃ g r i : ℚ, qty = .num g ∧ cur = .num r ∧ total = .num i ∧ 0 < g ∧ 0 < r ∧ 0 < i) →
      (if !qty.isNaN && qty.gt (.num 0) && !cur.isNaN && cur.gt (.num 0) && total.gt (.num 0)
        then (qty.mul cur).sub total else JsNum.num 0) = .num 0) := by
  constructor
  · intro g r i hq hc ht hg hr hi
    subst hq; subst hc; subst ht
    simp [JsNum.isNaN, JsNum.gt, hg, hr, hi, JsNum.mul, JsNum.sub]
  · intro hno
    cases qty with
    | nan => simp [JsNum.isNaN]
    | num g =>
      cases cur with
      | nan => simp [JsNum.isNaN]
      | num r =>
        cases total with
        | nan => simp [JsNum.gt]
        | num i =>
          have h : ¬ (0 < g ∧ 0 < r ∧ 0 < i) := fun h => hno ⟨g, r, i, rfl, rfl, rfl, h⟩
          simp only [JsNum.isNaN, JsNum.gt, Bool.not_false, Bool.true_and, Bool.and_eq_true,
            decide_eq_true_eq]
          rw [if_neg]
          tauto

/-- C14. Profit valuation, for each metal on its own: when grams and rate read as numbers
that are strictly positive and the invested total of the metal is strictly positive, the
profit is `grams * rate - investedTotal`; in every other case it is 0. Gold:
`50 * 7200 - 300000 = 60000`; with grams 0 or not given (NaN) the gold profit is 0 whatever
the rate and the invested total. -/
theorem profit_valuation (inv : InvestedTotals) (gQty gCur sQty sCur : JsNum) :
    (∀ g r i : ℚ, gQty = .num g → gCur = .num r → inv.gold = .num i → 0 < g → 0 < r → 0 < i →
      (profits inv gQty gCur sQty sCur).gold = .num (g * r - i)) ∧
    ((¬ ∃ g r i : ℚ, gQty = .num g ∧ gCur = .num r ∧ inv.gold = .num i ∧ 0 < g ∧ 0 < r ∧ 0 < i) →
      (profits inv gQty gCur sQty sCur).gold = .num 0) ∧
    (∀ g r i : ℚ, sQty = .num g → sCur = .num r → inv.silver = .num i → 0 < g → 0 < r → 0 < i →
      (profits inv gQty gCur sQty sCur).silver = .num (g * r - i)) ∧
    ((¬ ∃ g r i : ℚ, sQty = .num g ∧ sCur = .num r ∧ inv.silver = .num i ∧ 0 < g ∧ 0 < r ∧ 0 < i) →
      (profits inv gQty gCur sQty sCur).silver = .num 0) ∧
    (inv.gold = .num 300000 →
      (profits inv (.num 50) (.num 7200) sQty sCur).gold = .num 60000) ∧
    (profits inv (.num 0) gCur sQty sCur).gold = .num 0 ∧
    (profits inv .nan gCur sQty sCur).gold = .num 0 := by
  refine ⟨?_, ?_, ?_, ?_, ?_, ?_, ?_⟩
  · rw [profits_gold_eq]; exact (profit_rule gQty gCur inv.gold).1
  · rw [profits_gold_eq]; exact (profit_rule gQty gCur inv.gold).2
  · rw [profits_silver_eq]; exact (profit_rule sQty sCur inv.silver).1
  · rw [profits_silver_eq]; exact (profit_rule sQty sCur inv.silver).2
  · intro hi
    rw [profits_gold_eq]
    rw [(profit_rule (.num 50) (.num 7200) inv.gold).1 50 7200 300000 rfl rfl hi
      (by norm_num) (by norm_num) (by norm_num)]
    congr 1
    norm_num
  · rw [profits_gold_eq]
    simp [JsNum.gt, JsNum.isNaN]
  · rw [profits_gold_eq]
    simp [JsNum.isNaN]

/-- C15. GST rows are a direct projection: `gstData` has as many rows as there are records,
and the row at each position carries the record's `id`, its `invoiceDate` (the empty string
when the date is `null`, `undefined` or empty), and its `amountWithoutGst` and `gstAmount`,
each read as a number and replaced by 0 when `null` or `undefined`. -/
theorem gstData_projection (F : List Invoice) :
    (gstData F).length = F.length ∧
    ∀ (i : ℕ) (inv : Invoice), F[i]? = some inv →
      ∃ row, (gstData F)[i]? = some row ∧ row.id = inv.id ∧
        (inv.invoiceDate.missing = true → row.invoiceDate = "") ∧
        (∀ s, inv.invoiceDate = .str s → row.invoiceDate = s) ∧
        (inv.amountWithoutGst.isNullish = true → row.amountWithoutGst = .num 0) ∧
        (inv.amountWithoutGst.isNullish = false →
          row.amountWithoutGst = inv.amountWithoutGst.toNumber) ∧
        (inv.gstAmount.isNullish = true → row.gstAmount = .num 0) ∧
        (inv.gstAmount.isNullish = false → row.gstAmount = inv.gstAmount.toNumber) := by
  constructor
  · simp [gstData]
  · intro i inv hi
    refine ⟨{ id := inv.id
              invoiceDate := inv.invoiceDate.orElse ""
              amountWithoutGst :=
                if !inv.amountWithoutGst.isNullish then inv.amountWithoutGst.toNumber else .num 0
              gstAmount := if !inv.gstAmount.isNullish then inv.gstAmount.toNumber else .num 0 },
      by simp [gstData, hi], rfl, ?_, ?_, ?_, ?_, ?_, ?_⟩
    · intro h; exact orElse_of_missing _ h
    · intro s hs; simp only [hs]; exact orElse_of_str s
    · intro h; simp [h]
    · intro h; simp [h]
    · intro h; simp [h]
    · intro h; simp [h]

/-! ## Theorems on malformed records -/

/-- C16 (evaluation of the code at the failing input). With one record whose `invoiceDate`
is the unparseable string `"abc"` and whose total is 50, `dailyData` throws the
`RangeError` of `toISOString`: `parseDate` hands on an invalid `Date`, which is neither
`null` nor earlier than the cutoff. -/
theorem dailyData_throws_on_unparseable_date :
    dailyData istHost feb01 [badDate] = .error "RangeError: Invalid time value" := by
  rfl

/-- C17 (evaluation of the code at the failing input). With the invoice of 5 January
(total 100, GST 10) followed by an invoice of 7 January whose total and GST amount are not
numeric, `totalSpend` and `gstPaid` are `NaN` and so is the total of the bucket `2024-01`,
while on the first invoice alone they are 100, 10 and 100. -/
theorem nonNumeric_amount_poisons_sums :
    (kpi [jan05, badTotal]).totalSpend = .nan ∧
    (kpi [jan05, badTotal]).gstPaid = .nan ∧
    monthlyData istHost [jan05, badTotal] = [{ month := "2024-01", total := .nan }] ∧
    (kpi [jan05]).totalSpend = .num 100 ∧
    (kpi [jan05]).gstPaid = .num 10 ∧
    monthlyData istHost [jan05] = [{ month := "2024-01", total := .num 100 }] := by
  have hk1 : monthKey istHost (.valid 1704412800000) = "2024-01" := by decide
  have hk2 : monthKey istHost (.valid 1704585600000) = "2024-01" := by decide
  have hp1 : parseDate istHost jan05.invoiceDate = some (.valid 1704412800000) := by decide
  have hp2 : parseDate istHost badTotal.invoiceDate = some (.valid 1704585600000) := by decide
  have hn1 : newDate istHost jan05.invoiceDate = .valid 1704412800000 := by decide
  have hn2 : newDate istHost badTotal.invoiceDate = .valid 1704585600000 := by decide
  have ht1 : jan05.totalAmount = .numeric 100 := rfl
  have ht2 : badTotal.totalAmount = .nonNumeric := rfl
  have hg1 : jan05.gstAmount = .numeric 10 := rfl
  have hg2 : badTotal.gstAmount = .nonNumeric := rfl
  refine ⟨?_, ?_, ?_, ?_, ?_, ?_⟩
  · simp [kpi, kpiStep, ht1, ht2, hg1, hg2, Amount.isNullish, Amount.toNumber, JsNum.add]
  · simp [kpi, kpiStep, ht1, ht2, hg1, hg2, Amount.isNullish, Amount.toNumber, JsNum.add]
  · simp [monthlyData, monthlyStep, hp1, hp2, hn1, hn2, hk1, hk2, ht1, ht2, Amount.isNullish,
      Amount.toNumber, getOrZero, mapGet, mapSet, sortEntries, JsNum.add]
  · simp [kpi, kpiStep, ht1, hg1, Amount.isNullish, Amount.toNumber, JsNum.add]
  · simp [kpi, kpiStep, ht1, hg1, Amount.isNullish, Amount.toNumber, JsNum.add]
  · simp [monthlyData, monthlyStep, hp1, hn1, hk1, ht1, Amount.isNullish,
      Amount.toNumber, getOrZero, mapGet, mapSet, sortEntries, JsNum.add]

/-! ## Theorems on loading and formatting -/

/-- C19 (the claim as stated fails). A dashboard that shows the invoice of 5 January and
receives a successful response whose body is not an array still holds that invoice. -/
theorem non_array_response_keeps_records :
    (fetchInvoices false { invoices := [jan05], status := .success, error := none }
      (.json .other)).invoices = [jan05] := by
  rfl

/-- C19 (amended). A successful response whose body is not an array leaves the record set
of the dashboard as it was, so it is empty exactly when it was empty before, as on the first
load; no error is reported: the error message is unchanged and the status does not become
`error`. -/
theorem non_array_response_ignored (cancelled : Bool) (st : Dashboard) :
    (fetchInvoices cancelled st (.json .other)).invoices = st.invoices ∧
    (fetchInvoices cancelled st (.json .other)).error = st.error ∧
    (st.status ≠ .error → (fetchInvoices cancelled st (.json .other)).status ≠ .error) ∧
    (st.invoices = [] → (fetchInvoices cancelled st (.json .other)).invoices = []) ∧
    (fetchInvoices cancelled Dashboard.initial (.json .other)).invoices = [] := by
  refine ⟨rfl, rfl, ?_, fun h => h, rfl⟩
  intro h
  show (if st.status = .idle then Status.loading else st.status) ≠ .error
  split
  · intro h2; cases h2
  · exact h

theorem formatCurrency_ok (format : Amount → Except String String) (toStr : Amount → String)
    (lit : String) (value : Amount) :
    ∃ s, (if value.isNullish then (pure lit : Except String String)
      else tryCatch (format value) (fun _ => pure (toStr value))) = .ok s := by
  cases hn : value.isNullish with
  | true => exact ⟨lit, rfl⟩
  | false =>
    simp only [Bool.false_eq_true, if_false]
    cases hf : format value with
    | ok s => exact ⟨s, rfl⟩
    | error e => exact ⟨toStr value, rfl⟩

/-- C20 (the claim as stated fails). For `null` the dashboard's `formatCurrency` returns the
text `-`, which shows no zero amount. -/
theorem dashboard_formatCurrency_null :
    formatCurrency throwingFormat plainStr .null = .ok "-" ∧ showsZero "-" = false := by
  exact ⟨rfl, by decide⟩

/-- C20 (amended). For a `null` or `undefined` value the home page's `formatCurrency`
returns its literal for zero rupees (the rupee sign as the source file encodes it, then
`0`) and the dashboard's `formatCurrency` returns the literal `-`; neither throws for any
input, whatever the formatter does. -/
theorem formatCurrency_fallbacks (format : Amount → Except String String)
    (toStr : Amount → String) (value : Amount) :
    (value.isNullish = true →
      Home.formatCurrency format toStr value = .ok "â‚¹0" ∧
      formatCurrency format toStr value = .ok "-") ∧
    showsZero "â‚¹0" = true ∧
    (∃ s, Home.formatCurrency format toStr value = .ok s) ∧
    (∃ s, formatCurrency format toStr value = .ok s) := by
  refine ⟨?_, by decide, formatCurrency_ok format toStr _ value,
    formatCurrency_ok format toStr _ value⟩
  intro h
  simp only [Home.formatCurrency, formatCurrency, h, if_true]
  exact ⟨rfl, rfl⟩

/-! ## Further instances at sample data -/

/-- C12 at sample data: the platinum invoice alone, and next to a gold invoice. -/
theorem metal_label_normalization_witness :
    metalData istHost [platinum] = [{ name := "PLATINUM", value := .num 1 }] ∧
    ∃ e ∈ metalData istHost [jan05, platinum], e.name = "PLATINUM" :=
  ⟨((metal_label_normalization istHost [jan05, platinum]).2.2.2 platinum rfl).2.1,
   ((metal_label_normalization istHost [jan05, platinum]).2.1 "PLATINUM").2
     ⟨platinum, List.mem_cons_of_mem _ (List.mem_singleton.2 rfl),
      ((metal_label_normalization istHost [jan05, platinum]).2.2.2 platinum rfl).1⟩⟩

/-- C13 at sample data: the example of the specification, in a browser in India. -/
theorem invested_totals_sums_witness :
    investedTotals istHost [gold1000, silver500, gold2000]
      = { gold := .num 3000, silver := .num 500 } :=
  (invested_totals_sums istHost []).2.2 gold1000 silver500 gold2000 rfl rfl rfl rfl rfl rfl

/-- C14 at sample data: the gold example of the specification, and no silver holding. -/
theorem profit_valuation_witness :
    (profits { gold := .num 300000, silver := .num 0 } (.num 50) (.num 7200) .nan .nan).gold
      = .num (50 * 7200 - 300000) ∧
    (profits { gold := .num 300000, silver := .num 0 } (.num 50) (.num 7200) .nan .nan).silver
      = .num 0 ∧
    (profits { gold := .num 300000, silver := .num 0 } (.num 50) (.num 7200) .nan .nan).gold
      = .num 60000 :=
  ⟨(profit_valuation { gold := .num 300000, silver := .num 0 } (.num 50) (.num 7200) .nan .nan).1
      50 7200 300000 rfl rfl rfl (by norm_num) (by norm_num) (by norm_num),
   (profit_valuation { gold := .num 300000, silver := .num 0 } (.num 50) (.num 7200) .nan
      .nan).2.2.2.1 (by rintro ⟨g, r, i, h, _⟩; cases h),
   (profit_valuation { gold := .num 300000, silver := .num 0 } (.num 50) (.num 7200) .nan
      .nan).2.2.2.2.1 rfl⟩

/-- C15 at sample data: the second row of two, from a record without a GST amount. -/
theorem gstData_projection_witness :
    ∃ row, (gstData [jan05, dec01])[1]? = some row ∧ row.id = 3 ∧
      row.invoiceDate = "2023-12-01" ∧ row.gstAmount = .num 0 :=
  match (gstData_projection [jan05, dec01]).2 1 dec01 rfl with
  | ⟨row, h1, h2, _, h4, _, _, h7, _⟩ => ⟨row, h1, h2, h4 "2023-12-01" rfl, h7 rfl⟩

/-- C19 (amended) at sample data: a dashboard showing one invoice, and the first load. -/
theorem non_array_response_ignored_witness :
    (fetchInvoices false { invoices := [jan05], status := .success, error := none }
      (.json .other)).status ≠ .error ∧
    (fetchInvoices false Dashboard.initial (.json .other)).invoices = [] :=
  ⟨(non_array_response_ignored false
      { invoices := [jan05], status := .success, error := none }).2.2.1 (by decide),
   (non_array_response_ignored false Dashboard.initial).2.2.2.1 rfl⟩

/-- C20 (amended) at sample data: the two fallbacks for `undefined`. -/
theorem formatCurrency_fallbacks_witness :
    Home.formatCurrency throwingFormat plainStr .undefined = .ok "â‚¹0" ∧
    formatCurrency throwingFormat plainStr .undefined = .ok "-" :=
  (formatCurrency_fallbacks throwingFormat plainStr .undefined).1 rfl

/-! ## Lemmas on the filter and the invested totals together -/

theorem keeps_no_criteria (H : Host) (inv : Invoice) : keeps H ⟨"", "", "ALL"⟩ inv = true := by
  simp [keeps]

theorem filteredInvoices_no_criteria (H : Host) (R : List Invoice) :
    filteredInvoices H R ⟨"", "", "ALL"⟩ = R := by
  unfold filteredInvoices
  exact List.filter_eq_self.2 (fun inv _ => keeps_no_criteria H inv)

theorem home_investedStep_eq (H : Host) : Home.investedStep H = investedStep H := by
  funext acc inv
  rfl

theorem keeps_split (H : Host) (s e mf : String) (inv : Invoice) :
    keeps H ⟨s, e, mf⟩ inv =
      (keeps H ⟨s, e, "ALL"⟩ inv &&
        (decide (mf = "ALL") || startsWith (H.toUpperCase (inv.metalType.orElse "")) mf)) := by
  unfold keeps
  simp only []
  by_cases hm : mf = "ALL"
  · subst hm
    simp
  · simp only [ne_eq, hm, not_false_eq_true, decide_True, Bool.true_and, not_true_eq_false,
      decide_False, Bool.false_and, Bool.false_eq_true, if_false, Bool.false_or]
    split_ifs <;> simp_all

theorem prefix_of_investedIn (H : Host) (tok : String) (inv : Invoice)
    (h : investedIn H tok inv = true) :
    startsWith (H.toUpperCase (inv.metalType.orElse "")) tok = true := by
  unfold investedIn at h
  simp only [Bool.and_eq_true, Bool.not_eq_true'] at h
  rw [orElse_eq_toStr _ _ h.1.1]
  exact h.2

theorem filter_investedIn_of_metalFilter (H : Host) (R : List Invoice) (s e tok : String) :
    (filteredInvoices H R ⟨s, e, tok⟩).filter (investedIn H tok)
      = (filteredInvoices H R ⟨s, e, "ALL"⟩).filter (investedIn H tok) := by
  unfold filteredInvoices
  rw [List.filter_filter, List.filter_filter]
  apply List.filter_congr
  intro inv _
  rw [keeps_split H s e tok inv]
  cases hi : investedIn H tok inv with
  | false => rfl
  | true => simp [prefix_of_investedIn H tok inv hi]

theorem filter_investedIn_other (H : Host) (R : List Invoice) (s e tok other : String)
    (htok : tok ≠ "ALL")
    (hex : ∀ x : String, startsWith x tok = true → startsWith x other = false) :
    (filteredInvoices H R ⟨s, e, tok⟩).filter (investedIn H other) = [] := by
  unfold filteredInvoices
  rw [List.filter_filter]
  apply List.filter_eq_nil_iff.2
  intro inv _
  rw [keeps_split H s e tok inv]
  cases hi : investedIn H other inv with
  | false => simp
  | true =>
    have h1 := prefix_of_investedIn H other inv hi
    have h2 : startsWith (H.toUpperCase (inv.metalType.orElse "")) tok = false := by
      cases h3 : startsWith (H.toUpperCase (inv.metalType.orElse "")) tok with
      | false => rfl
      | true => rw [hex _ h3] at h1; cases h1
    simp [htok, h2]

theorem not_gold_of_silver (x : String) (h : startsWith x "SILVER" = true) :
    startsWith x "GOLD" = false := by
  cases hg : startsWith x "GOLD" with
  | false => rfl
  | true => rw [not_silver_of_gold x hg] at h; cases h

/-! ## Theorems on the filter and the invested totals together -/

/-- C22. The home page's invested totals agree with the dashboard's: with no start date, no
end date and metal filter `"ALL"` the filter returns the list `R` itself, and the memo
`invested` of the home page on `R` equals `investedTotals` of the dashboard on that filter
output. -/
theorem home_invested_agrees (H : Host) (R : List Invoice) :
    filteredInvoices H R ⟨"", "", "ALL"⟩ = R ∧
    Home.invested H R = investedTotals H (filteredInvoices H R ⟨"", "", "ALL"⟩) := by
  refine ⟨filteredInvoices_no_criteria H R, ?_⟩
  rw [filteredInvoices_no_criteria]
  unfold Home.invested investedTotals
  rw [home_investedStep_eq]

/-- C23. The metal filter and the invested totals match prefixes alike: for any date bounds
`s`, `e`, with metal filter `"GOLD"` the invested silver total is 0 and the invested gold
total is the one obtained with filter `"ALL"` and the same bounds; with `"SILVER"` the
invested gold total is 0 and the silver total is the one obtained with `"ALL"`. -/
theorem metal_filter_consistent (H : Host) (R : List Invoice) (s e : String) :
    (investedTotals H (filteredInvoices H R ⟨s, e, "GOLD"⟩)).silver = .num 0 ∧
    (investedTotals H (filteredInvoices H R ⟨s, e, "GOLD"⟩)).gold
      = (investedTotals H (filteredInvoices H R ⟨s, e, "ALL"⟩)).gold ∧
    (investedTotals H (filteredInvoices H R ⟨s, e, "SILVER"⟩)).gold = .num 0 ∧
    (investedTotals H (filteredInvoices H R ⟨s, e, "SILVER"⟩)).silver
      = (investedTotals H (filteredInvoices H R ⟨s, e, "ALL"⟩)).silver := by
  refine ⟨?_, ?_, ?_, ?_⟩
  · rw [investedTotals_eq, filter_investedIn_other H R s e "GOLD" "SILVER" (by decide)
      not_silver_of_gold]
    rfl
  · rw [investedTotals_eq, investedTotals_eq, filter_investedIn_of_metalFilter]
  · rw [investedTotals_eq, filter_investedIn_other H R s e "SILVER" "GOLD" (by decide)
      not_gold_of_silver]
    rfl
  · rw [investedTotals_eq, investedTotals_eq, filter_investedIn_of_metalFilter]

/-! ## Lemmas on the invoice list -/

theorem notAfter_iff_sortKey (H : Host) (a b : Invoice)
    (ha : Invoices.dateOf H a ≠ some .invalid) (hb : Invoices.dateOf H b ≠ some .invalid) :
    Invoices.notAfter H a b ↔ Invoices.sortKey H a ≤ Invoices.sortKey H b := by
  unfold Invoices.notAfter Invoices.comparator Invoices.sortKey
  cases hda : Invoices.dateOf H a with
  | none =>
    cases hdb : Invoices.dateOf H b with
    | none => simp
    | some db =>
      cases db with
      | invalid => exact absurd hdb hb
      | valid tb => simp
  | some da =>
    cases da with
    | invalid => exact absurd hda ha
    | valid ta =>
      cases hdb : Invoices.dateOf H b with
      | none => simp
      | some db =>
        cases db with
        | invalid => exact absurd hdb hb
        | valid tb =>
          simp only [JsDate.sub, WithTop.coe_le_coe]
          constructor
          · intro h
            have h2 : ((ta - tb : ℤ) : ℚ) ≤ ((0 : ℤ) : ℚ) := by simpa using h
            have h3 : ta - tb ≤ 0 := by exact_mod_cast h2
            omega
          · intro h
            have h3 : ta - tb ≤ 0 := by omega
            have h2 : ((ta - tb : ℤ) : ℚ) ≤ ((0 : ℤ) : ℚ) := by exact_mod_cast h3
            simpa using h2

theorem inOrder_of_sortKey_le (H : Host) (a b : Invoice)
    (ha : Invoices.dateOf H a ≠ some .invalid) (hb : Invoices.dateOf H b ≠ some .invalid)
    (h : Invoices.sortKey H a ≤ Invoices.sortKey H b) : Invoices.inOrder H a b := by
  unfold Invoices.sortKey at h
  unfold Invoices.inOrder
  cases hda : Invoices.dateOf H a with
  | none =>
    cases hdb : Invoices.dateOf H b with
    | none => trivial
    | some db =>
      cases db with
      | invalid => exact absurd hdb hb
      | valid tb => simp [hda, hdb] at h
  | some da =>
    cases da with
    | invalid => exact absurd hda ha
    | valid ta =>
      cases hdb : Invoices.dateOf H b with
      | none => trivial
      | some db =>
        cases db with
        | invalid => exact absurd hdb hb
        | valid tb => simpa [hda, hdb] using h

theorem sortByDate_perm (H : Host) (data : List Invoice) :
    (Invoices.sortByDate H data).Perm data :=
  List.perm_insertionSort _ data

theorem sortByDate_keys_sorted (H : Host) (data : List Invoice)
    (hv : ∀ inv ∈ data, Invoices.dateOf H inv ≠ some .invalid) :
    ((Invoices.sortByDate H data).map (Invoices.sortKey H)).Sorted (· ≤ ·) := by
  unfold Invoices.sortByDate
  rw [List.map_insertionSort (Invoices.notAfter H) (· ≤ ·) (Invoices.sortKey H) data
    (fun a ha b hb => notAfter_iff_sortKey H a b (hv a ha) (hv b hb))]
  exact List.sorted_insertionSort _ _

theorem sortByDate_inOrder (H : Host) (data : List Invoice)
    (hv : ∀ inv ∈ data, Invoices.dateOf H inv ≠ some .invalid) :
    (Invoices.sortByDate H data).Pairwise (Invoices.inOrder H) := by
  have hs := sortByDate_keys_sorted H data hv
  unfold List.Sorted at hs
  rw [List.pairwise_map] at hs
  have hmem : ∀ x ∈ Invoices.sortByDate H data, Invoices.dateOf H x ≠ some .invalid :=
    fun x hx => hv x ((sortByDate_perm H data).mem_iff.1 hx)
  exact hs.imp_of_mem (fun {a b} ha hb h => inOrder_of_sortKey_le H a b (hmem a ha) (hmem b hb) h)

/-! ## Theorems on the invoice list -/

/-- C21 (the claim as stated fails). With the invoice of 5 January, an invoice whose date
does not parse, and the invoice of 1 January, in this order, the invoice list shows the
three in the same order: the comparator returns `NaN` against the invalid date, which the
sort reads as a tie, so 5 January stays before 1 January. -/
theorem invoice_list_unsorted_with_invalid_date :
    (Invoices.fetchInvoices istHost true { invoices := [], status := .idle }
        (.json (.array [jan05, badDate, jan01]))).invoices = [jan05, badDate, jan01] ∧
    ¬ (Invoices.fetchInvoices istHost true { invoices := [], status := .idle }
        (.json (.array [jan05, badDate, jan01]))).invoices.Pairwise (Invoices.inOrder istHost) := by
  decide

/-- C21 (amended). When every date present in the array parses to a valid date, the list
the invoice page shows is a permutation of the array in display order: no record without a
date stands before a record with one, and the records with a date stand in non-decreasing
order of their time values. -/
theorem invoice_list_sorted_nulls_last (H : Host) (st : InvoicesPage) (data : List Invoice)
    (hv : ∀ inv ∈ data, Invoices.dateOf H inv ≠ some .invalid) :
    (Invoices.fetchInvoices H true st (.json (.array data))).invoices.Perm data ∧
    (Invoices.fetchInvoices H true st (.json (.array data))).invoices.Pairwise
      (Invoices.inOrder H) := by
  exact ⟨sortByDate_perm H data, sortByDate_inOrder H data hv⟩

/-- C21 (amended) at sample data: five records, two of them without a date. -/
theorem invoice_list_sorted_nulls_last_witness :
    (Invoices.fetchInvoices istHost true { invoices := [], status := .idle }
        (.json (.array [jan05, undated, jan20, jan01, undated]))).invoices.Perm
      [jan05, undated, jan20, jan01, undated] ∧
    (Invoices.fetchInvoices istHost true { invoices := [], status := .idle }
        (.json (.array [jan05, undated, jan20, jan01, undated]))).invoices.Pairwise
      (Invoices.inOrder istHost) :=
  invoice_list_sorted_nulls_last istHost { invoices := [], status := .idle }
    [jan05, undated, jan20, jan01, undated] (by decide)

end Aura
